import Mathlib

/-!
Verification of the TensorFlow function-argument rearrangement pass
(`tensorflow/compiler/tf2xla/rearrange_function_argument_pass.cc`) and of
`AddDefaultAttrsToGraphDef` (`tensorflow/core/framework/graph_def_util.cc`),
via a shallow embedding of the relevant data model (graphs, nodes, edges,
typed attributes, function libraries) and of the pass's functions.
-/

namespace TFRearrange

/-- Tensor data types; only `DT_RESOURCE` is treated specially by the pass.
`DT_INVALID` is value 0 in the proto enum and is what a default-constructed
`DataType` holds (used by `std::vector<DataType> result(n)`). -/
inductive DataType where
  | DT_INVALID
  | DT_FLOAT
  | DT_INT32
  | DT_BOOL
  | DT_RESOURCE
  deriving DecidableEq

open DataType

/-- First index whose type is `DT_RESOURCE` (the first loop of
`InputTypesNeedsRearrange`, which breaks at the first match), or `none`. -/
def firstResourceIndex (in_types : List DataType) : Option Nat :=
  in_types.findIdx? (fun t => t == DT_RESOURCE)

/-- Result of `InputTypesNeedsRearrange`.  In the C++ the three fields are
out-parameters; `resource_input_count` and `index_mapping` are written only
when `need_rewrite` is set to true, and otherwise keep whatever the caller's
locals held. -/
structure RearrangeInfo where
  need_rewrite : Bool
  resource_input_count : Nat
  index_mapping : List Nat
  deriving DecidableEq

/-- The two-pointer assignment loop of `InputTypesNeedsRearrange`
(lines 89-100): non-resource entries take the next low index starting at
`nonResourceIndex`, resource entries take the next high index starting at
`resourceIndex`. -/
def buildIndexMapping : List DataType → Nat → Nat → List Nat
  | [], _, _ => []
  | t :: ts, nonResourceIndex, resourceIndex =>
    if t == DT_RESOURCE then
      resourceIndex :: buildIndexMapping ts nonResourceIndex (resourceIndex + 1)
    else
      nonResourceIndex :: buildIndexMapping ts (nonResourceIndex + 1) resourceIndex

/-- Embedding of `InputTypesNeedsRearrange` (lines 54-103).  The parameters
`resource_input_count0` and `index_mapping0` are the values held by the
caller's locals before the call; the C++ leaves the corresponding
out-parameters untouched on the two early-return paths. -/
def InputTypesNeedsRearrange (in_types : List DataType)
    (resource_input_count0 : Nat) (index_mapping0 : List Nat) : RearrangeInfo :=
  match firstResourceIndex in_types with
  | none => ⟨false, resource_input_count0, index_mapping0⟩
  | some fri =>
    let need_rewrite := (in_types.drop (fri + 1)).any (fun t => t != DT_RESOURCE)
    if !need_rewrite then ⟨false, resource_input_count0, index_mapping0⟩
    else
      let resource_input_count := in_types.count DT_RESOURCE
      ⟨true, resource_input_count,
        buildIndexMapping in_types 0 (in_types.length - resource_input_count)⟩

theorem buildIndexMapping_length (ts : List DataType) :
    ∀ nr r, (buildIndexMapping ts nr r).length = ts.length := by
  induction ts with
  | nil => intro nr r; rfl
  | cons t ts ih =>
    intro nr r
    by_cases h : t = DT_RESOURCE <;> simp [buildIndexMapping, h, ih]

theorem buildIndexMapping_getD (ts : List DataType) :
    ∀ nr r i, i < ts.length →
      (buildIndexMapping ts nr r).getD i 0 =
        if ts.getD i DT_INVALID = DT_RESOURCE then
          r + (ts.take i).countP (fun t => t == DT_RESOURCE)
        else
          nr + (ts.take i).countP (fun t => t != DT_RESOURCE) := by
  induction ts with
  | nil => intro nr r i h; simp at h
  | cons t ts ih =>
    intro nr r i h
    match i with
    | 0 =>
      by_cases ht : t = DT_RESOURCE <;> simp [buildIndexMapping, ht]
    | i + 1 =>
      have hi : i < ts.length := by simpa using h
      by_cases ht : t = DT_RESOURCE
      · rw [show buildIndexMapping (t :: ts) nr r
            = r :: buildIndexMapping ts nr (r + 1) from by simp [buildIndexMapping, ht]]
        simp only [List.getD_cons_succ, List.take_succ_cons, List.countP_cons]
        rw [ih nr (r + 1) i hi]
        have e1 : (t == DT_RESOURCE) = true := by simp [ht]
        have e2 : (t != DT_RESOURCE) = false := by simp [ht]
        rw [e1, e2]
        split_ifs <;> first | omega | simp_all
      · rw [show buildIndexMapping (t :: ts) nr r
            = nr :: buildIndexMapping ts (nr + 1) r from by simp [buildIndexMapping, ht]]
        simp only [List.getD_cons_succ, List.take_succ_cons, List.countP_cons]
        rw [ih (nr + 1) r i hi]
        have e1 : (t == DT_RESOURCE) = false := by simp [ht]
        have e2 : (t != DT_RESOURCE) = true := by simp [ht]
        rw [e1, e2]
        split_ifs <;> first | omega | simp_all

theorem countP_res_add_countP_nonres (l : List DataType) :
    l.countP (fun t => t == DT_RESOURCE) + l.countP (fun t => t != DT_RESOURCE)
      = l.length := by
  induction l with
  | nil => rfl
  | cons t ts ih =>
    by_cases h : t = DT_RESOURCE <;> simp [List.countP_cons, h] <;> omega

theorem countP_take_le (p : DataType → Bool) (l : List DataType) {i j : Nat} (h : i ≤ j) :
    (l.take i).countP p ≤ (l.take j).countP p := by
  have e : l.take i = (l.take j).take i := by
    rw [List.take_take, Nat.min_eq_left h]
  rw [e]
  exact (List.take_sublist _ _).countP_le _

theorem countP_take_succ (p : DataType → Bool) (l : List DataType) (i : Nat)
    (h : i < l.length) :
    (l.take (i + 1)).countP p
      = (l.take i).countP p + (if p (l.getD i DT_INVALID) then 1 else 0) := by
  have e1 : l.take (i + 1) = l.take i ++ [l[i]] := by
    rw [List.take_succ, List.getElem?_eq_getElem h]; rfl
  have e2 : l.getD i DT_INVALID = l[i] := by
    rw [List.getD_eq_getElem?_getD, List.getElem?_eq_getElem h]; rfl
  rw [e1, List.countP_append, List.countP_singleton, e2]

theorem InputTypesNeedsRearrange_eq_of_need (l : List DataType) (c0 : Nat) (m0 : List Nat)
    (h : (InputTypesNeedsRearrange l c0 m0).need_rewrite = true) :
    InputTypesNeedsRearrange l c0 m0
      = ⟨true, l.count DT_RESOURCE,
          buildIndexMapping l 0 (l.length - l.count DT_RESOURCE)⟩ := by
  unfold InputTypesNeedsRearrange at h ⊢
  cases hf : firstResourceIndex l with
  | none => rw [hf] at h; simp at h
  | some fri =>
    rw [hf] at h
    show (if (!((l.drop (fri + 1)).any fun t => t != DT_RESOURCE)) = true
        then RearrangeInfo.mk false c0 m0
        else RearrangeInfo.mk true (l.count DT_RESOURCE)
          (buildIndexMapping l 0 (l.length - l.count DT_RESOURCE)))
      = RearrangeInfo.mk true (l.count DT_RESOURCE)
          (buildIndexMapping l 0 (l.length - l.count DT_RESOURCE))
    have h2 : (if (!((l.drop (fri + 1)).any fun t => t != DT_RESOURCE)) = true
        then RearrangeInfo.mk false c0 m0
        else RearrangeInfo.mk true (l.count DT_RESOURCE)
          (buildIndexMapping l 0 (l.length - l.count DT_RESOURCE))).need_rewrite = true := h
    by_cases hn : ((l.drop (fri + 1)).any fun t => t != DT_RESOURCE) = true
    · rw [hn]; rfl
    · rw [Bool.not_eq_true] at hn
      rw [hn] at h2
      simp at h2

theorem res_count_pos_of_need (l : List DataType) (c0 : Nat) (m0 : List Nat)
    (h : (InputTypesNeedsRearrange l c0 m0).need_rewrite = true) :
    0 < l.countP (fun t => t == DT_RESOURCE) := by
  unfold InputTypesNeedsRearrange at h
  cases hf : firstResourceIndex l with
  | none => rw [hf] at h; simp at h
  | some fri =>
    have := List.findIdx?_eq_some_iff_getElem.mp hf
    obtain ⟨hlt, hp, _⟩ := this
    rw [List.countP_pos_iff]
    exact ⟨l[fri], List.getElem_mem hlt, hp⟩

theorem nonres_count_pos_of_need (l : List DataType) (c0 : Nat) (m0 : List Nat)
    (h : (InputTypesNeedsRearrange l c0 m0).need_rewrite = true) :
    0 < l.countP (fun t => t != DT_RESOURCE) := by
  unfold InputTypesNeedsRearrange at h
  cases hf : firstResourceIndex l with
  | none => rw [hf] at h; simp at h
  | some fri =>
    rw [hf] at h
    have h2 : (if (!((l.drop (fri + 1)).any fun t => t != DT_RESOURCE)) = true
        then RearrangeInfo.mk false c0 m0
        else RearrangeInfo.mk true (l.count DT_RESOURCE)
          (buildIndexMapping l 0 (l.length - l.count DT_RESOURCE))).need_rewrite = true := h
    by_cases hn : ((l.drop (fri + 1)).any fun t => t != DT_RESOURCE) = true
    · rw [List.any_eq_true] at hn
      obtain ⟨x, hx, hpx⟩ := hn
      rw [List.countP_pos_iff]
      exact ⟨x, List.mem_of_mem_drop hx, hpx⟩
    · rw [Bool.not_eq_true] at hn
      rw [hn] at h2
      simp at h2

/-- C1: for every input-type list in which the resource-typed entries are not
all contiguous at the end (exactly the lists on which
`InputTypesNeedsRearrange` reports `need_rewrite`), the computed
`index_mapping` has length `n`, maps into `[0, n)`, is injective and
surjective on `[0, n)` (a bijection), is stable (strictly order-preserving
within the non-resource class and within the resource class), and sends every
resource-typed original position to an index `>= n - resource_input_count`;
in particular it maps `[float, resource, float, resource]` to
`[0, 2, 1, 3]`. -/
theorem C1_input_index_mapping_bijective_stable (l : List DataType) (c0 : Nat)
    (m0 : List Nat)
    (h : (InputTypesNeedsRearrange l c0 m0).need_rewrite = true) :
    (InputTypesNeedsRearrange l c0 m0).index_mapping.length = l.length ∧
    (∀ i, i < l.length →
      (InputTypesNeedsRearrange l c0 m0).index_mapping.getD i 0 < l.length) ∧
    (∀ i j, i < l.length → j < l.length →
      (InputTypesNeedsRearrange l c0 m0).index_mapping.getD i 0
        = (InputTypesNeedsRearrange l c0 m0).index_mapping.getD j 0 → i = j) ∧
    (∀ v, v < l.length → ∃ i, i < l.length ∧
      (InputTypesNeedsRearrange l c0 m0).index_mapping.getD i 0 = v) ∧
    (∀ i j, i < j → j < l.length →
      ((l.getD i DT_INVALID == DT_RESOURCE) = (l.getD j DT_INVALID == DT_RESOURCE)) →
      (InputTypesNeedsRearrange l c0 m0).index_mapping.getD i 0
        < (InputTypesNeedsRearrange l c0 m0).index_mapping.getD j 0) ∧
    (∀ i, i < l.length → l.getD i DT_INVALID = DT_RESOURCE →
      l.length - (InputTypesNeedsRearrange l c0 m0).resource_input_count
        ≤ (InputTypesNeedsRearrange l c0 m0).index_mapping.getD i 0) ∧
    (InputTypesNeedsRearrange [DT_FLOAT, DT_RESOURCE, DT_FLOAT, DT_RESOURCE]
      c0 m0).index_mapping = [0, 2, 1, 3] := by
  have hinfo := InputTypesNeedsRearrange_eq_of_need l c0 m0 h
  have hcnt : l.count DT_RESOURCE = l.countP (fun t => t == DT_RESOURCE) :=
    List.count_eq_countP _ _
  have hsum := countP_res_add_countP_nonres l
  have hfull : l.take l.length = l := List.take_length l
  have hval : ∀ i, i < l.length →
      (buildIndexMapping l 0 (l.length - l.count DT_RESOURCE)).getD i 0 =
        if l.getD i DT_INVALID = DT_RESOURCE
        then (l.length - l.count DT_RESOURCE)
          + (l.take i).countP (fun t => t == DT_RESOURCE)
        else (l.take i).countP (fun t => t != DT_RESOURCE) := by
    intro i hi
    rw [buildIndexMapping_getD l 0 (l.length - l.count DT_RESOURCE) i hi]
    split_ifs <;> omega
  have cR_le : ∀ j, (l.take j).countP (fun t => t == DT_RESOURCE)
      ≤ l.countP (fun t => t == DT_RESOURCE) := by
    intro j
    calc (l.take j).countP (fun t => t == DT_RESOURCE)
        ≤ (l.take l.length).countP (fun t => t == DT_RESOURCE) := by
          by_cases hj : j ≤ l.length
          · exact countP_take_le _ l hj
          · rw [List.take_of_length_le (by omega), hfull]
      _ = l.countP (fun t => t == DT_RESOURCE) := by rw [hfull]
  have cNR_le : ∀ j, (l.take j).countP (fun t => t != DT_RESOURCE)
      ≤ l.countP (fun t => t != DT_RESOURCE) := by
    intro j
    calc (l.take j).countP (fun t => t != DT_RESOURCE)
        ≤ (l.take l.length).countP (fun t => t != DT_RESOURCE) := by
          by_cases hj : j ≤ l.length
          · exact countP_take_le _ l hj
          · rw [List.take_of_length_le (by omega), hfull]
      _ = l.countP (fun t => t != DT_RESOURCE) := by rw [hfull]
  have stepR : ∀ i, i < l.length → l.getD i DT_INVALID = DT_RESOURCE →
      (l.take (i + 1)).countP (fun t => t == DT_RESOURCE)
        = (l.take i).countP (fun t => t == DT_RESOURCE) + 1 := by
    intro i hi hres
    rw [countP_take_succ _ l i hi, hres]
    simp
  have stepNR : ∀ i, i < l.length → ¬(l.getD i DT_INVALID = DT_RESOURCE) →
      (l.take (i + 1)).countP (fun t => t != DT_RESOURCE)
        = (l.take i).countP (fun t => t != DT_RESOURCE) + 1 := by
    intro i hi hres
    rw [countP_take_succ _ l i hi, if_pos (by simpa using hres)]
  have F1 : ∀ i, i < l.length → l.getD i DT_INVALID = DT_RESOURCE →
      (l.take i).countP (fun t => t == DT_RESOURCE) + 1
        ≤ l.countP (fun t => t == DT_RESOURCE) := by
    intro i hi hres
    have := cR_le (i + 1)
    rw [stepR i hi hres] at this
    omega
  have F2 : ∀ i, i < l.length → ¬(l.getD i DT_INVALID = DT_RESOURCE) →
      (l.take i).countP (fun t => t != DT_RESOURCE) + 1
        ≤ l.countP (fun t => t != DT_RESOURCE) := by
    intro i hi hres
    have := cNR_le (i + 1)
    rw [stepNR i hi hres] at this
    omega
  have monoR : ∀ i j, i < j → j < l.length → l.getD i DT_INVALID = DT_RESOURCE →
      (l.take i).countP (fun t => t == DT_RESOURCE)
        < (l.take j).countP (fun t => t == DT_RESOURCE) := by
    intro i j hij hj hres
    have h1 := stepR i (by omega) hres
    have h2 := countP_take_le (fun t => t == DT_RESOURCE) l (show i + 1 ≤ j by omega)
    omega
  have monoNR : ∀ i j, i < j → j < l.length → ¬(l.getD i DT_INVALID = DT_RESOURCE) →
      (l.take i).countP (fun t => t != DT_RESOURCE)
        < (l.take j).countP (fun t => t != DT_RESOURCE) := by
    intro i j hij hj hres
    have h1 := stepNR i (by omega) hres
    have h2 := countP_take_le (fun t => t != DT_RESOURCE) l (show i + 1 ≤ j by omega)
    omega
  rw [hinfo]
  simp only
  -- from here on, the mapping is `buildIndexMapping l 0 (n - R)`
  have hRpos := res_count_pos_of_need l c0 m0 h
  have hNRpos := nonres_count_pos_of_need l c0 m0 h
  have range : ∀ i, i < l.length →
      (buildIndexMapping l 0 (l.length - l.count DT_RESOURCE)).getD i 0 < l.length := by
    intro i hi
    rw [hval i hi]
    by_cases hres : l.getD i DT_INVALID = DT_RESOURCE
    · rw [if_pos hres]
      have := F1 i hi hres
      omega
    · rw [if_neg hres]
      have := F2 i hi hres
      omega
  have hneq : ∀ i j, i < j → j < l.length →
      (buildIndexMapping l 0 (l.length - l.count DT_RESOURCE)).getD i 0
        ≠ (buildIndexMapping l 0 (l.length - l.count DT_RESOURCE)).getD j 0 := by
    intro i j hij hj
    rw [hval i (by omega), hval j hj]
    by_cases hi : l.getD i DT_INVALID = DT_RESOURCE <;>
      by_cases hj2 : l.getD j DT_INVALID = DT_RESOURCE
    · rw [if_pos hi, if_pos hj2]
      have := monoR i j hij hj hi
      omega
    · rw [if_pos hi, if_neg hj2]
      have := F2 j hj hj2
      omega
    · rw [if_neg hi, if_pos hj2]
      have := F2 i (by omega) hi
      omega
    · rw [if_neg hi, if_neg hj2]
      have := monoNR i j hij hj hi
      omega
  have inj : ∀ i j, i < l.length → j < l.length →
      (buildIndexMapping l 0 (l.length - l.count DT_RESOURCE)).getD i 0
        = (buildIndexMapping l 0 (l.length - l.count DT_RESOURCE)).getD j 0 → i = j := by
    intro i j hi hj heq
    rcases Nat.lt_trichotomy i j with hlt | he | hgt
    · exact absurd heq (hneq i j hlt hj)
    · exact he
    · exact absurd heq.symm (hneq j i hgt hi)
  refine ⟨buildIndexMapping_length l 0 _, range, inj, ?_, ?_, ?_, rfl⟩
  · -- surjectivity from injectivity on Fin n
    intro v hv
    have hbij := (Finite.injective_iff_bijective
      (f := fun i : Fin l.length =>
        (⟨(buildIndexMapping l 0 (l.length - l.count DT_RESOURCE)).getD i.val 0,
          range i.val i.isLt⟩ : Fin l.length))).mp ?_
    · obtain ⟨i, hfi⟩ := hbij.2 ⟨v, hv⟩
      exact ⟨i.val, i.isLt, congrArg Fin.val hfi⟩
    · intro a b hab
      exact Fin.ext (inj a.val b.val a.isLt b.isLt (congrArg Fin.val hab))
  · -- stability within each class
    intro i j hij hj hcl
    rw [hval i (by omega), hval j hj]
    by_cases hi : l.getD i DT_INVALID = DT_RESOURCE
    · have hjres : l.getD j DT_INVALID = DT_RESOURCE := by
        have : (l.getD i DT_INVALID == DT_RESOURCE) = true := by rw [hi]; rfl
        rw [this] at hcl
        simpa using hcl.symm
      rw [if_pos hi, if_pos hjres]
      have := monoR i j hij hj hi
      omega
    · have hjres : ¬(l.getD j DT_INVALID = DT_RESOURCE) := by
        have : (l.getD i DT_INVALID == DT_RESOURCE) = false := by simpa using hi
        rw [this] at hcl
        simpa using hcl.symm
      rw [if_neg hi, if_neg hjres]
      have := monoNR i j hij hj hi
      omega
  · -- resource positions land in the tail
    intro i hi hres
    rw [hval i hi, if_pos hres]
    omega

/-- Witness for C1 at the Scenario A input `[float, resource, float, resource]`. -/
theorem C1_input_index_mapping_bijective_stable_witness :
    (InputTypesNeedsRearrange [DT_FLOAT, DT_RESOURCE, DT_FLOAT, DT_RESOURCE]
        0 []).need_rewrite = true ∧
    (InputTypesNeedsRearrange [DT_FLOAT, DT_RESOURCE, DT_FLOAT, DT_RESOURCE]
        0 []).index_mapping = [0, 2, 1, 3] ∧
    4 - (InputTypesNeedsRearrange [DT_FLOAT, DT_RESOURCE, DT_FLOAT, DT_RESOURCE]
        0 []).resource_input_count
      ≤ (InputTypesNeedsRearrange [DT_FLOAT, DT_RESOURCE, DT_FLOAT, DT_RESOURCE]
        0 []).index_mapping.getD 1 0 :=
  ⟨by decide,
   (C1_input_index_mapping_bijective_stable
      [DT_FLOAT, DT_RESOURCE, DT_FLOAT, DT_RESOURCE] 0 [] (by decide)).2.2.2.2.2.2,
   (C1_input_index_mapping_bijective_stable
      [DT_FLOAT, DT_RESOURCE, DT_FLOAT, DT_RESOURCE] 0 [] (by decide)).2.2.2.2.2.1
      1 (by decide) (by decide)⟩

/-- Error taxonomy of the pass (section 7 of the spec): `tensorflow::Status`
codes that the embedded functions can produce, plus `outOfFuel`, which marks
a computation that exceeded the recursion bound of the embedding (the C++
recursion is unbounded). -/
inductive Err where
  | notFound
  | invalidArgument
  | unimplemented
  | internal
  | outOfRange
  | outOfFuel
  deriving DecidableEq

/-- Attribute values as used by the pass: integers (`index`), single types
(`T` on `_Arg`/`_Retval`), type lists (`Tin`, `Tout`, While `T`), function
references (`NameAttrList`; the attribute map of the referenced function is
not modelled and is treated as empty everywhere), and booleans. -/
inductive AttrValue where
  | int : Int → AttrValue
  | type : DataType → AttrValue
  | typeList : List DataType → AttrValue
  | func : String → AttrValue
  | bool : Bool → AttrValue
  deriving DecidableEq

/-- A node record as serialized in a `GraphDef` (name, op, attribute map). -/
structure NodeDef where
  name : String
  op : String
  attr : List (String × AttrValue)
  deriving DecidableEq

/-- A single attribute of an operation's registered signature, possibly with
a default value. -/
structure AttrSpec where
  name : String
  default_value : Option AttrValue
  deriving DecidableEq

/-- The part of an operation's registered signature (`OpDef`) relevant here:
its attribute specifications. -/
structure OpDef where
  attr : List AttrSpec
  deriving DecidableEq

/-- The operation registry: `LookUp(op) -> OpDef | NotFound`. -/
def OpRegistry := String → Option OpDef

/-- A serialized graph: an ordered list of node records. -/
structure GraphDef where
  node : List NodeDef
  deriving DecidableEq

/-- One step of default filling for a single attribute specification. -/
def addDefaultStep (n : NodeDef) (a : AttrSpec) : NodeDef :=
  match a.default_value with
  | some v =>
    if n.attr.any (fun kv => kv.1 == a.name) then n
    else { n with attr := n.attr ++ [(a.name, v)] }
  | none => n

/-- Modelled from the spec: `AddDefaultsToNodeDef` (declared in
`tensorflow/core/framework/node_def_util.h`, not among the sources).  Per
spec section 4.2, any attribute absent on the node but present with a
default in the operation's signature is filled in with the default. -/
def AddDefaultsToNodeDef (od : OpDef) (nd : NodeDef) : NodeDef :=
  od.attr.foldl addDefaultStep nd

/-- The loop of `AddDefaultAttrsToGraphDef` (graph_def_util.cc lines 57-64):
node `i` is looked up in the registry and mutated in place, and the loop
advances; `remaining` is the number of iterations left
(`node_size() - i` at entry). -/
def addDefaultAttrsLoop (reg : OpRegistry) :
    Nat → List NodeDef → Nat → Except Err (List NodeDef)
  | 0, nodes, _ => .ok nodes
  | remaining + 1, nodes, i =>
    match nodes[i]? with
    | none => .ok nodes
    | some nd =>
      match reg nd.op with
      | none => .error .notFound
      | some od =>
        addDefaultAttrsLoop reg remaining
          (nodes.set i (AddDefaultsToNodeDef od nd)) (i + 1)

/-- Embedding of `AddDefaultAttrsToGraphDef` (graph_def_util.cc lines
46-67): offsets past the node count are `InvalidArgument`; otherwise every
node at index `>= node_offset` gets its defaults filled in. -/
def AddDefaultAttrsToGraphDef (graph_def : GraphDef) (reg : OpRegistry)
    (node_offset : Nat) : Except Err GraphDef :=
  if node_offset > graph_def.node.length then .error .invalidArgument
  else
    match addDefaultAttrsLoop reg (graph_def.node.length - node_offset)
        graph_def.node node_offset with
    | .ok ns => .ok ⟨ns⟩
    | .error e => .error e

/-- Does the node carry an attribute named `k`?  (The membership test used by
the default-filling step.) -/
def hasAttr (n : NodeDef) (k : String) : Bool :=
  n.attr.any (fun kv => kv.1 == k)

theorem addDefaultStep_op (n : NodeDef) (a : AttrSpec) :
    (addDefaultStep n a).op = n.op := by
  cases hd : a.default_value with
  | none => simp [addDefaultStep, hd]
  | some v =>
    simp only [addDefaultStep, hd]
    split <;> rfl

theorem foldl_addDefaultStep_op (l : List AttrSpec) :
    ∀ nd : NodeDef, (List.foldl addDefaultStep nd l).op = nd.op := by
  induction l with
  | nil => intro nd; rfl
  | cons a l ih => intro nd; rw [List.foldl_cons, ih, addDefaultStep_op]

theorem addDefaultStep_preserves (n : NodeDef) (a : AttrSpec) (k : String)
    (h : hasAttr n k = true) : hasAttr (addDefaultStep n a) k = true := by
  cases hd : a.default_value with
  | none => simpa [addDefaultStep, hd] using h
  | some v =>
    simp only [addDefaultStep, hd]
    split
    · exact h
    · unfold hasAttr at h ⊢
      simp only [List.any_append]
      rw [h]
      rfl

theorem addDefaultStep_adds (n : NodeDef) (a : AttrSpec) (v : AttrValue)
    (hd : a.default_value = some v) :
    hasAttr (addDefaultStep n a) a.name = true := by
  simp only [addDefaultStep, hd]
  split
  · next hc => exact hc
  · next hc =>
    unfold hasAttr
    simp

theorem foldl_addDefaultStep_preserves (l : List AttrSpec) :
    ∀ nd k, hasAttr nd k = true → hasAttr (List.foldl addDefaultStep nd l) k = true := by
  induction l with
  | nil => intro nd k h; exact h
  | cons a l ih =>
    intro nd k h
    rw [List.foldl_cons]
    exact ih _ k (addDefaultStep_preserves nd a k h)

theorem foldl_addDefaultStep_has (l : List AttrSpec) :
    ∀ nd a v, a ∈ l → a.default_value = some v →
      hasAttr (List.foldl addDefaultStep nd l) a.name = true := by
  induction l with
  | nil => intro nd a v ha; exact absurd ha (List.not_mem_nil a)
  | cons b l ih =>
    intro nd a v ha hv
    rw [List.foldl_cons]
    rcases List.mem_cons.mp ha with he | hm
    · subst he
      exact foldl_addDefaultStep_preserves l _ _ (addDefaultStep_adds nd a v hv)
    · exact ih _ a v hm hv

theorem addDefaultStep_noop (n : NodeDef) (a : AttrSpec)
    (h : a.default_value = none ∨ hasAttr n a.name = true) :
    addDefaultStep n a = n := by
  rcases h with hd | hh
  · simp [addDefaultStep, hd]
  · cases hd : a.default_value with
    | none => simp [addDefaultStep, hd]
    | some v =>
      simp only [addDefaultStep, hd]
      rw [if_pos (show (n.attr.any fun kv => kv.1 == a.name) = true from hh)]

theorem foldl_addDefaultStep_noop (l : List AttrSpec) :
    ∀ nd, (∀ a ∈ l, a.default_value = none ∨ hasAttr nd a.name = true) →
      List.foldl addDefaultStep nd l = nd := by
  induction l with
  | nil => intro nd _; rfl
  | cons b l ih =>
    intro nd h
    rw [List.foldl_cons, addDefaultStep_noop nd b (h b (List.mem_cons_self b l))]
    exact ih nd (fun a ha => h a (List.mem_cons_of_mem b ha))

theorem AddDefaultsToNodeDef_idem (od : OpDef) (nd : NodeDef) :
    AddDefaultsToNodeDef od (AddDefaultsToNodeDef od nd)
      = AddDefaultsToNodeDef od nd := by
  unfold AddDefaultsToNodeDef
  apply foldl_addDefaultStep_noop
  intro a ha
  cases hd : a.default_value with
  | none => exact Or.inl rfl
  | some v => exact Or.inr (foldl_addDefaultStep_has od.attr nd a v ha hd)

theorem set_self_of_getElem? {α : Type} {l : List α} {i : Nat} {x : α}
    (h : l[i]? = some x) : l.set i x = l := by
  apply List.ext_getElem?
  intro j
  by_cases hj : i = j
  · subst hj
    have hlt : i < l.length := by
      by_contra hge
      rw [List.getElem?_eq_none (by omega)] at h
      exact absurd h (by simp)
    rw [List.getElem?_set_self hlt, h]
  · rw [List.getElem?_set_ne hj]

theorem addDefaultAttrsLoop_length (reg : OpRegistry) :
    ∀ r nodes i out, addDefaultAttrsLoop reg r nodes i = .ok out →
      out.length = nodes.length := by
  intro r
  induction r with
  | zero =>
    intro nodes i out h
    simp only [addDefaultAttrsLoop] at h
    injection h with h
    subst h
    rfl
  | succ r ih =>
    intro nodes i out h
    simp only [addDefaultAttrsLoop] at h
    split at h
    · injection h with h
      subst h
      rfl
    · split at h
      · exact Except.noConfusion h
      · have := ih _ _ _ h
        simpa using this

theorem addDefaultAttrsLoop_frame (reg : OpRegistry) :
    ∀ r nodes i out, addDefaultAttrsLoop reg r nodes i = .ok out →
      ∀ k, k < i → out[k]? = nodes[k]? := by
  intro r
  induction r with
  | zero =>
    intro nodes i out h
    simp only [addDefaultAttrsLoop] at h
    injection h with h
    subst h
    intro k _
    rfl
  | succ r ih =>
    intro nodes i out h
    simp only [addDefaultAttrsLoop] at h
    split at h
    · injection h with h
      subst h
      intro k _
      rfl
    · split at h
      · exact Except.noConfusion h
      · intro k hk
        rw [ih _ _ _ h k (by omega)]
        exact List.getElem?_set_ne (by omega)

theorem addDefaultAttrsLoop_idem (reg : OpRegistry) :
    ∀ r nodes i out, addDefaultAttrsLoop reg r nodes i = .ok out →
      addDefaultAttrsLoop reg r out i = .ok out := by
  intro r
  induction r with
  | zero =>
    intro nodes i out h
    simp only [addDefaultAttrsLoop] at h
    injection h with h
    subst h
    rfl
  | succ r ih =>
    intro nodes i out h
    simp only [addDefaultAttrsLoop] at h ⊢
    split at h
    · next hget =>
      injection h with h
      subst h
      rw [hget]
    · next nd hget =>
      split at h
      · exact Except.noConfusion h
      · next od hreg =>
        have hi : i < nodes.length := by
          by_contra hge
          rw [List.getElem?_eq_none (by omega)] at hget
          exact absurd hget (by simp)
        have hout_i : out[i]? = some (AddDefaultsToNodeDef od nd) := by
          rw [addDefaultAttrsLoop_frame reg r _ _ _ h i (by omega)]
          exact List.getElem?_set_self (by simpa using hi)
        rw [hout_i]
        have hop : (AddDefaultsToNodeDef od nd).op = nd.op :=
          foldl_addDefaultStep_op od.attr nd
        show (match reg (AddDefaultsToNodeDef od nd).op with
            | none => (Except.error Err.notFound : Except Err (List NodeDef))
            | some od2 => addDefaultAttrsLoop reg r
                (out.set i (AddDefaultsToNodeDef od2 (AddDefaultsToNodeDef od nd)))
                (i + 1))
          = Except.ok out
        rw [hop, hreg]
        show addDefaultAttrsLoop reg r
            (out.set i (AddDefaultsToNodeDef od (AddDefaultsToNodeDef od nd))) (i + 1)
          = Except.ok out
        rw [AddDefaultsToNodeDef_idem, set_self_of_getElem? hout_i]
        exact ih _ _ _ h

/-- C9: when `AddDefaultAttrsToGraphDef` succeeds with a node offset, every
node at an index below the offset is byte-for-byte unchanged, and the
operation is idempotent: running it again on the result (same registry, same
offset) succeeds and returns the result unchanged. -/
theorem C9_AddDefaultAttrs_offset_frame_and_idempotent (gd : GraphDef)
    (reg : OpRegistry) (node_offset : Nat) (gd' : GraphDef)
    (h : AddDefaultAttrsToGraphDef gd reg node_offset = .ok gd') :
    (∀ k, k < node_offset → gd'.node[k]? = gd.node[k]?) ∧
    AddDefaultAttrsToGraphDef gd' reg node_offset = .ok gd' := by
  unfold AddDefaultAttrsToGraphDef at h ⊢
  split at h
  · exact Except.noConfusion h
  · next hoff =>
    split at h
    · next ns hloop =>
      injection h with h
      subst h
      have hlen := addDefaultAttrsLoop_length reg _ _ _ _ hloop
      refine ⟨fun k hk => addDefaultAttrsLoop_frame reg _ _ _ _ hloop k hk, ?_⟩
      rw [if_neg (by simp only [GraphDef.node]; omega)]
      have hidem := addDefaultAttrsLoop_idem reg _ _ _ _ hloop
      show (match addDefaultAttrsLoop reg (ns.length - node_offset) ns node_offset with
          | .ok ns2 => Except.ok (GraphDef.mk ns2)
          | .error e => Except.error e) = Except.ok (GraphDef.mk ns)
      rw [hlen, hidem]
    · next e hloop => exact Except.noConfusion h

/-- A two-node graph for the C9 witness: node 0 already carries the attribute,
node 1 does not. -/
def c9Graph : GraphDef :=
  ⟨[⟨"a", "TestOp", [("value", AttrValue.int 3)]⟩, ⟨"b", "TestOp", []⟩]⟩

/-- A one-op registry whose `TestOp` has a single defaulted attribute. -/
def c9Reg : OpRegistry := fun s =>
  if s = "TestOp" then some ⟨[⟨"value", some (AttrValue.int 7)⟩]⟩ else none

/-- The expected result of default filling `c9Graph` from offset 1. -/
def c9Graph' : GraphDef :=
  ⟨[⟨"a", "TestOp", [("value", AttrValue.int 3)]⟩,
    ⟨"b", "TestOp", [("value", AttrValue.int 7)]⟩]⟩

/-- Witness for C9 at a concrete graph, registry and offset. -/
theorem C9_AddDefaultAttrs_offset_frame_and_idempotent_witness :
    AddDefaultAttrsToGraphDef c9Graph c9Reg 1 = .ok c9Graph' ∧
    c9Graph'.node[0]? = c9Graph.node[0]? ∧
    AddDefaultAttrsToGraphDef c9Graph' c9Reg 1 = .ok c9Graph' :=
  ⟨by rfl,
   (C9_AddDefaultAttrs_offset_frame_and_idempotent c9Graph c9Reg 1 c9Graph'
      (by rfl)).1 0 (by decide),
   (C9_AddDefaultAttrs_offset_frame_and_idempotent c9Graph c9Reg 1 c9Graph'
      (by rfl)).2⟩

/-- A graph node: stable id, name, op string, attribute map. -/
structure Node where
  id : Nat
  name : String
  op : String
  attrs : List (String × AttrValue)
  deriving DecidableEq

/-- A directed edge from `(src, src_output)` to `(dst, dst_input)`;
`control = true` marks a control edge (TF uses slot `-1` there; the slots of
a control edge are meaningless and kept at 0 here). -/
structure Edge where
  src : Nat
  src_output : Nat
  dst : Nat
  dst_input : Nat
  control : Bool
  deriving DecidableEq

/-- A graph: a set of nodes (identified by `Node.id`) and a set of edges. -/
structure Graph where
  nodes : List Node
  edges : List Edge
  deriving DecidableEq

def getNode (g : Graph) (nid : Nat) : Option Node :=
  g.nodes.find? (fun n => n.id == nid)

/-- `GetNodeAttr(n->def(), key, &value)`: `none` models the `NotFound`
status. -/
def GetNodeAttr (n : Node) (key : String) : Option AttrValue :=
  (n.attrs.find? (fun kv => kv.1 == key)).map (fun kv => kv.2)

def getTypeAttr (n : Node) (key : String) : Option DataType :=
  match GetNodeAttr n key with
  | some (.type t) => some t
  | _ => none

def getTypeListAttr (n : Node) (key : String) : Option (List DataType) :=
  match GetNodeAttr n key with
  | some (.typeList ts) => some ts
  | _ => none

def getIntAttr (n : Node) (key : String) : Option Int :=
  match GetNodeAttr n key with
  | some (.int v) => some v
  | _ => none

def getFuncAttr (n : Node) (key : String) : Option String :=
  match GetNodeAttr n key with
  | some (.func s) => some s
  | _ => none

/-- `n->ClearAttr(key)` immediately followed by `n->AddAttr(key, v)`, the
pattern used everywhere in the pass. -/
def setAttr (n : Node) (key : String) (v : AttrValue) : Node :=
  { n with attrs := n.attrs.filter (fun kv => kv.1 != key) ++ [(key, v)] }

def updateNodeAttr (g : Graph) (nid : Nat) (key : String) (v : AttrValue) : Graph :=
  { g with nodes := g.nodes.map (fun n => if n.id == nid then setAttr n key v else n) }

def eraseEdge : List Edge → Edge → List Edge
  | [], _ => []
  | x :: xs, e => if x == e then xs else x :: eraseEdge xs e

def RemoveEdge (g : Graph) (e : Edge) : Graph :=
  { g with edges := eraseEdge g.edges e }

/-- `g->AddEdge(src, src_output, dst, dst_input)` (data edge). -/
def AddEdge (g : Graph) (src src_output dst dst_input : Nat) : Graph :=
  { g with edges := g.edges ++ [⟨src, src_output, dst, dst_input, false⟩] }

/-- `g->RemoveNode(n)`: the node and all incident edges are removed. -/
def RemoveNode (g : Graph) (nid : Nat) : Graph :=
  { nodes := g.nodes.filter (fun n => n.id != nid),
    edges := g.edges.filter (fun e => e.src != nid && e.dst != nid) }

/-- `n->input_edge(idx, &e)`: the unique non-control in-edge at input slot
`idx`; `none` models the error status. -/
def inputEdge (g : Graph) (nid : Nat) (idx : Nat) : Option Edge :=
  g.edges.find? (fun e => !e.control && e.dst == nid && e.dst_input == idx)

/-- `n->input_node(idx, &m)`. -/
def inputNode (g : Graph) (nid : Nat) (idx : Nat) : Option Node :=
  match inputEdge g nid idx with
  | some e => getNode g e.src
  | none => none

def IsArg (n : Node) : Bool := n.op == "_Arg"

def IsRetval (n : Node) : Bool := n.op == "_Retval"

def IsIdentity (n : Node) : Bool := n.op == "Identity"

/-- A materialized function body: its graph plus the `_Arg`/`_Retval` node
ids in index order (`FunctionBody` in common_runtime/function.h). -/
structure FunctionBody where
  graph : Graph
  arg_nodes : List Nat
  ret_nodes : List Nat
  deriving DecidableEq

/-- A function definition: a name and a serialized body graph. -/
structure FunctionDef where
  fname : String
  fgraph : Graph
  deriving DecidableEq

/-- The function library (`FunctionLibraryDefinition`), keyed by name. -/
abbrev FunctionLibrary := List FunctionDef

def fldFind (fld : FunctionLibrary) (name : String) : Option FunctionDef :=
  fld.find? (fun fd => fd.fname == name)

/-- The node (if any) with the given op whose integer `index` attribute is
`idx`. -/
def nodeWithOpIndex (g : Graph) (opname : String) (idx : Nat) : Option Nat :=
  (g.nodes.find? (fun n =>
    n.op == opname && getIntAttr n "index" == some (Int.ofNat idx))).map (fun n => n.id)

/-- Collect the ids of `count` nodes of the given op with `index` attributes
`start, start+1, ...`; `none` if some index is missing or duplicated away. -/
def collectIndexed (g : Graph) (opname : String) : Nat → Nat → Option (List Nat)
  | 0, _ => some []
  | k + 1, start =>
    match nodeWithOpIndex g opname start with
    | none => none
    | some nid =>
      match collectIndexed g opname k (start + 1) with
      | none => none
      | some rest => some (nid :: rest)

/-- `FunctionDefToBodyHelper`: materialize a function definition as a body
whose `arg_nodes`/`ret_nodes` are ordered by their `index` attributes;
malformed indices give `InvalidArgument`. -/
def FunctionDefToBodyHelper (fd : FunctionDef) : Except Err FunctionBody :=
  let g := fd.fgraph
  let argCount := g.nodes.countP (fun n => n.op == "_Arg")
  let retCount := g.nodes.countP (fun n => n.op == "_Retval")
  match collectIndexed g "_Arg" argCount 0, collectIndexed g "_Retval" retCount 0 with
  | some args, some rets => .ok ⟨g, args, rets⟩
  | _, _ => .error .invalidArgument

/-- `GraphToFunctionDef(graph, name, &fdef)`: serialization is lossless in
this model. -/
def GraphToFunctionDef (g : Graph) (name : String) : FunctionDef := ⟨name, g⟩

/-- `fld->AddFunctionDef(fdef)`: fails if the name is already taken. -/
def AddFunctionDef (fld : FunctionLibrary) (fd : FunctionDef) :
    Except Err FunctionLibrary :=
  if fld.any (fun f => f.fname == fd.fname) then .error .invalidArgument
  else .ok (fld ++ [fd])

/-- `fld->ReplaceFunction(name, fdef)`. -/
def ReplaceFunction (fld : FunctionLibrary) (name : String) (fd : FunctionDef) :
    FunctionLibrary :=
  fld.map (fun f => if f.fname == name then fd else f)

def uniqueFunctionNameAux (fld : FunctionLibrary) (pfx : String) :
    Nat → Nat → String
  | 0, k => pfx ++ toString k
  | fuel + 1, k =>
    let cand := pfx ++ toString k
    if fld.any (fun f => f.fname == cand) then
      uniqueFunctionNameAux fld pfx fuel (k + 1)
    else cand

/-- `fld->UniqueFunctionName(prefix)`: the first `prefix ++ k` not present in
the library (the search is bounded by `|fld| + 1`, which always suffices). -/
def UniqueFunctionName (fld : FunctionLibrary) (pfx : String) : String :=
  uniqueFunctionNameAux fld pfx (fld.length + 1) 0

/-- Rearranged input-type attribute (`ShuffleInputDataTypeAttribute`, lines
39-47): `result[index_mapping[i]] = in_types[i]`, result default-constructed
(`DT_INVALID`) at positions never written. -/
def ShuffleInputDataTypeAttribute (in_types : List DataType)
    (index_mapping : List Nat) : List DataType :=
  (List.range in_types.length).foldl
    (fun res i => res.set (index_mapping.getD i 0) (in_types.getD i DT_INVALID))
    (List.replicate index_mapping.length DT_INVALID)

/-- The `std::map<int, int>` used for retval index mappings: association list
in insertion order; `insert` keeps an existing key (std::map::insert does not
overwrite). -/
abbrev IMap := List (Nat × Nat)

def mapInsert (m : IMap) (k v : Nat) : IMap :=
  if m.any (fun kv => kv.1 == k) then m else m ++ [(k, v)]

def mapFind? (m : IMap) (k : Nat) : Option Nat :=
  (m.find? (fun kv => kv.1 == k)).map (fun kv => kv.2)

def mapContains (m : IMap) (k : Nat) : Bool := m.any (fun kv => kv.1 == k)

/-- Rearranged output-type attribute (`ShuffleOutputDataTypeAttribute`, lines
209-220): positions absent from the mapping (the resource retvals) are
dropped. -/
def ShuffleOutputDataTypeAttribute (out_types : List DataType)
    (index_mapping : IMap) : List DataType :=
  (List.range out_types.length).foldl
    (fun res i =>
      match mapFind? index_mapping i with
      | some j => res.set j (out_types.getD i DT_INVALID)
      | none => res)
    (List.replicate index_mapping.length DT_INVALID)

/-- The loop of `ReorderInputEdges` (lines 116-123) over the snapshot of
non-control in-edges; `index_mapping.at` out of range is the `outOfRange`
error (`std::vector::at` throws). -/
def reorderInputLoop (nid : Nat) (index_mapping : List Nat) :
    Graph → List Edge → Graph × Except Err Unit
  | g, [] => (g, .ok ())
  | g, e :: rest =>
    match index_mapping.get? e.dst_input with
    | none => (g, .error .outOfRange)
    | some new_dst_input =>
      reorderInputLoop nid index_mapping
        (AddEdge (RemoveEdge g e) e.src e.src_output nid new_dst_input) rest

/-- Embedding of `ReorderInputEdges` (lines 107-125). -/
def ReorderInputEdges (g : Graph) (nid : Nat) (index_mapping : List Nat) :
    Graph × Except Err Unit :=
  reorderInputLoop nid index_mapping g
    (g.edges.filter (fun e => !e.control && e.dst == nid))

/-- The loop of `ReorderOutputEdges` (lines 141-155): an output moved below
`input_count - resource_input_count` stays on the node at its new slot; a
resource output is bypassed by rewiring the consumer to the node's own input
at the same (rearranged) slot. -/
def reorderOutputLoop (nid input_count resource_input_count : Nat)
    (index_mapping : List Nat) :
    Graph → List Edge → Graph × Except Err Unit
  | g, [] => (g, .ok ())
  | g, e :: rest =>
    match index_mapping.get? e.src_output with
    | none => (g, .error .outOfRange)
    | some new_src_output =>
      let g1 := RemoveEdge g e
      if new_src_output < input_count - resource_input_count then
        reorderOutputLoop nid input_count resource_input_count index_mapping
          (AddEdge g1 nid new_src_output e.dst e.dst_input) rest
      else
        match inputEdge g1 nid new_src_output with
        | none => (g1, .error .invalidArgument)
        | some ie =>
          reorderOutputLoop nid input_count resource_input_count index_mapping
            (AddEdge g1 ie.src ie.src_output e.dst e.dst_input) rest

/-- Embedding of `ReorderOutputEdges` (lines 131-157, used for While). -/
def ReorderOutputEdges (g : Graph) (nid input_count resource_input_count : Nat)
    (index_mapping : List Nat) : Graph × Except Err Unit :=
  reorderOutputLoop nid input_count resource_input_count index_mapping g
    (g.edges.filter (fun e => !e.control && e.src == nid))

/-- The loop of `RearrangeArgNodes` (lines 163-168): `_Arg` node `i` gets
`index := index_mapping.at(i)`. -/
def rearrangeArgLoop (index_mapping : List Nat) :
    Graph → List (Nat × Nat) → Graph × Except Err Unit
  | g, [] => (g, .ok ())
  | g, (i, nid) :: rest =>
    match index_mapping.get? i with
    | none => (g, .error .outOfRange)
    | some new_index =>
      rearrangeArgLoop index_mapping
        (updateNodeAttr g nid "index" (.int (Int.ofNat new_index))) rest

/-- Embedding of `RearrangeArgNodes` (lines 161-169) on a function body's
graph. -/
def RearrangeArgNodes (g : Graph) (arg_nodes : List Nat)
    (index_mapping : List Nat) : Graph × Except Err Unit :=
  rearrangeArgLoop index_mapping g arg_nodes.enum

/-- The loop of `CalculateRetvalRearrange` (lines 181-203) over the `_Retval`
node ids: a non-resource retval is assigned the next compacted index (the
current size of the mapping); a resource retval must take its input 0
directly from an `_Arg` node, else `Unimplemented`.  The accumulator maps are
parameters because `MaybeRewriteIfNode` shares them across both branches.
Argument indices are stored as naturals (`Int.toNat`); every `index`
attribute written by this pass is non-negative. -/
def calcRetvalLoop (g : Graph) :
    List Nat → Nat → IMap → IMap → Except Err (IMap × IMap)
  | [], _, retval_index_mapping, resource_retval_to_arg =>
    .ok (retval_index_mapping, resource_retval_to_arg)
  | rid :: rest, i, retval_index_mapping, resource_retval_to_arg =>
    match getNode g rid with
    | none => .error .internal
    | some n =>
      match getTypeAttr n "T" with
      | none => .error .notFound
      | some t =>
        if t != DT_RESOURCE then
          calcRetvalLoop g rest (i + 1)
            (mapInsert retval_index_mapping i retval_index_mapping.length)
            resource_retval_to_arg
        else
          match inputEdge g rid 0 with
          | none => .error .notFound
          | some e =>
            match getNode g e.src with
            | none => .error .internal
            | some src =>
              if !(IsArg src) then .error .unimplemented
              else
                match getIntAttr src "index" with
                | none => .error .notFound
                | some src_index =>
                  calcRetvalLoop g rest (i + 1) retval_index_mapping
                    (mapInsert resource_retval_to_arg i src_index.toNat)

/-- Embedding of `CalculateRetvalRearrange` (lines 177-205). -/
def CalculateRetvalRearrange (g : Graph) (ret_nodes : List Nat)
    (retval_index_mapping resource_retval_to_arg : IMap) :
    Except Err (IMap × IMap) :=
  calcRetvalLoop g ret_nodes 0 retval_index_mapping resource_retval_to_arg

/-- The loop shared by `RearrangeOutputEdges` (lines 235-252, `arg_offset =
0`) and the inline out-edge rewiring of `MaybeRewriteIfNode` (lines 554-571,
`arg_offset = 1` because input 0 of an `If` node is the predicate): a
non-resource output keeps flowing from the node at its compacted slot; a
resource output's consumers are rewired to the producer feeding the node's
input `resource_retval_to_arg[slot] + arg_offset`. -/
def rearrangeOutputLoop (nid : Nat)
    (retval_index_mapping resource_retval_to_arg : IMap) (arg_offset : Nat) :
    Graph → List Edge → Graph × Except Err Unit
  | g, [] => (g, .ok ())
  | g, e :: rest =>
    match mapFind? retval_index_mapping e.src_output with
    | none =>
      if !(mapContains resource_retval_to_arg e.src_output) then
        (g, .error .internal)
      else
        let g1 := RemoveEdge g e
        match mapFind? resource_retval_to_arg e.src_output with
        | none => (g1, .error .internal)
        | some arg_index =>
          match inputEdge g1 nid (arg_index + arg_offset) with
          | none => (g1, .error .notFound)
          | some ie =>
            rearrangeOutputLoop nid retval_index_mapping resource_retval_to_arg
              arg_offset (AddEdge g1 ie.src ie.src_output e.dst e.dst_input) rest
    | some new_idx =>
      rearrangeOutputLoop nid retval_index_mapping resource_retval_to_arg
        arg_offset (AddEdge (RemoveEdge g e) nid new_idx e.dst e.dst_input) rest

/-- Embedding of `RearrangeOutputEdges` (lines 226-254, used for direct call
nodes). -/
def RearrangeOutputEdges (nid : Nat) (g : Graph)
    (retval_index_mapping resource_retval_to_arg : IMap) :
    Graph × Except Err Unit :=
  rearrangeOutputLoop nid retval_index_mapping resource_retval_to_arg 0 g
    (g.edges.filter (fun e => !e.control && e.src == nid))

/-- The loop of `RearrangeRetvalNodes` (lines 262-271): resource `_Retval`
nodes (absent from the mapping) are removed, the rest renumbered. -/
def rearrangeRetvalLoop (retval_index_mapping : IMap) :
    Graph → List (Nat × Nat) → Graph
  | g, [] => g
  | g, (i, rid) :: rest =>
    match mapFind? retval_index_mapping i with
    | none => rearrangeRetvalLoop retval_index_mapping (RemoveNode g rid) rest
    | some new_idx =>
      rearrangeRetvalLoop retval_index_mapping
        (updateNodeAttr g rid "index" (.int (Int.ofNat new_idx))) rest

/-- Embedding of `RearrangeRetvalNodes` (lines 259-272). -/
def RearrangeRetvalNodes (ret_nodes : List Nat) (g : Graph)
    (retval_index_mapping : IMap) : Graph :=
  rearrangeRetvalLoop retval_index_mapping g ret_nodes.enum

/-- The identity-skipping loop of the While body check (lines 329-331):
follow input 0 while the node is an `Identity`.  `fuel` bounds the walk (the
C++ loop would not terminate on an identity cycle); callers pass
`g.nodes.length + 1`, which suffices for any acyclic chain. -/
def skipIdentity (g : Graph) : Nat → Node → Option Node
  | 0, _ => none
  | fuel + 1, n =>
    if IsIdentity n then
      match inputNode g n.id 0 with
      | some m => skipIdentity g fuel m
      | none => none
    else some n

/-- Where a `_Retval` node's value ultimately comes from: its input 0,
skipping identity nodes. -/
def traceRetvalSource (g : Graph) (rid : Nat) : Option Node :=
  match inputNode g rid 0 with
  | some m => skipIdentity g (g.nodes.length + 1) m
  | none => none

/-- Does the retval trace back, through zero or more identity nodes, to an
`_Arg` node? -/
def tracesToArgViaIdentities (g : Graph) (rid : Nat) : Bool :=
  match traceRetvalSource g rid with
  | some m => IsArg m
  | none => false

/-- The While body resource-retval check (lines 318-347): every
resource-typed `_Retval[i]` must trace (through identities) to the `_Arg`
with the same index `i`; anything else is `Unimplemented`. -/
def checkWhileBodyLoop (bg : Graph) : List Nat → Nat → Except Err Unit
  | [], _ => .ok ()
  | rid :: rest, i =>
    match getNode bg rid with
    | none => .error .internal
    | some n =>
      match getTypeAttr n "T" with
      | none => .error .notFound
      | some dtype =>
        if dtype != DT_RESOURCE then checkWhileBodyLoop bg rest (i + 1)
        else
          match inputNode bg rid 0 with
          | none => .error .notFound
          | some n0 =>
            match skipIdentity bg (bg.nodes.length + 1) n0 with
            | none => .error .outOfFuel
            | some input_node =>
              if IsArg input_node then
                match getIntAttr input_node "index" with
                | none => .error .notFound
                | some index =>
                  if index != Int.ofNat i then .error .unimplemented
                  else checkWhileBodyLoop bg rest (i + 1)
              else .error .unimplemented

/-- The While body retval renumbering loop (lines 351-361): retvals mapped
below `cutoff = types.size() - resource_input_count` are renumbered, the
rest (the resource retvals) removed from the body. -/
def whileRetvalLoop (index_mapping : List Nat) (cutoff : Nat) :
    Graph → List (Nat × Nat) → Graph × Except Err Unit
  | g, [] => (g, .ok ())
  | g, (i, rid) :: rest =>
    match index_mapping.get? i with
    | none => (g, .error .outOfRange)
    | some new_index =>
      if new_index < cutoff then
        whileRetvalLoop index_mapping cutoff
          (updateNodeAttr g rid "index" (.int (Int.ofNat new_index))) rest
      else whileRetvalLoop index_mapping cutoff (RemoveNode g rid) rest

/-- Save a rewritten body under a fresh name and repoint the node's
function-reference attribute (lines 363-373 and 444-455 and 533-543). -/
def registerRewrittenFunction (g : Graph) (nid : Nat) (fld : FunctionLibrary)
    (attr_name fname : String) (bg : Graph) :
    Graph × FunctionLibrary × Except Err Unit :=
  let new_name := UniqueFunctionName fld (fname ++ "_rearrange_")
  match AddFunctionDef fld (GraphToFunctionDef bg new_name) with
  | .error e => (g, fld, .error e)
  | .ok fld2 => (updateNodeAttr g nid attr_name (.func new_name), fld2, .ok ())

instance {ε α : Type} [DecidableEq ε] [DecidableEq α] :
    DecidableEq (Except ε α) := fun a b =>
  match a, b with
  | .ok x, .ok y =>
    match decEq x y with
    | isTrue h => isTrue (h ▸ rfl)
    | isFalse h => isFalse (fun he => h (Except.ok.inj he))
  | .error x, .error y =>
    match decEq x y with
    | isTrue h => isTrue (h ▸ rfl)
    | isFalse h => isFalse (fun he => h (Except.error.inj he))
  | .ok _, .error _ => isFalse (fun he => Except.noConfusion he)
  | .error _, .ok _ => isFalse (fun he => Except.noConfusion he)

/-- Result of a `MaybeRewrite*Node` call: the graph and library as mutated in
place, and either the `node_rewritten` flag or the error status. -/
structure StepResult where
  g : Graph
  fld : FunctionLibrary
  res : Except Err Bool
  deriving DecidableEq

/-- One iteration of the cond/body loop of `MaybeRewriteWhileNode` (lines
303-374): materialize the referenced function, check resource retvals (body
only, before the `_Arg` indices are touched), rearrange `_Arg` indices,
renumber/remove `_Retval` nodes (body only), and register the new function. -/
def rewriteWhileFunction (g : Graph) (nid : Nat) (fld : FunctionLibrary)
    (types_len resource_input_count : Nat) (index_mapping : List Nat)
    (attr_name : String) : Graph × FunctionLibrary × Except Err Unit :=
  match getNode g nid with
  | none => (g, fld, .error .internal)
  | some n =>
    match getFuncAttr n attr_name with
    | none => (g, fld, .error .notFound)
    | some fname =>
      match fldFind fld fname with
      | none => (g, fld, .error .internal)
      | some fdef =>
        match FunctionDefToBodyHelper fdef with
        | .error e => (g, fld, .error e)
        | .ok fbody =>
          match (if attr_name == "body"
              then checkWhileBodyLoop fbody.graph fbody.ret_nodes 0
              else .ok ()) with
          | .error e => (g, fld, .error e)
          | .ok _ =>
            match RearrangeArgNodes fbody.graph fbody.arg_nodes index_mapping with
            | (_, .error e) => (g, fld, .error e)
            | (bg1, .ok _) =>
              match (if attr_name == "body"
                  then whileRetvalLoop index_mapping
                    (types_len - resource_input_count) bg1 fbody.ret_nodes.enum
                  else (bg1, .ok ())) with
              | (_, .error e) => (g, fld, .error e)
              | (bg2, .ok _) => registerRewrittenFunction g nid fld attr_name fname bg2

/-- Embedding of `MaybeRewriteWhileNode` (lines 274-376). -/
def MaybeRewriteWhileNode (g : Graph) (nid : Nat) (fld : FunctionLibrary) :
    StepResult :=
  match getNode g nid with
  | none => ⟨g, fld, .error .internal⟩
  | some n =>
    match getTypeListAttr n "T" with
    | none => ⟨g, fld, .error .notFound⟩
    | some types =>
      let info := InputTypesNeedsRearrange types 0 []
      if !info.need_rewrite then ⟨g, fld, .ok false⟩
      else
        let g1 := updateNodeAttr g nid "T"
          (.typeList (ShuffleInputDataTypeAttribute types info.index_mapping))
        match ReorderInputEdges g1 nid info.index_mapping with
        | (g2, .error e) => ⟨g2, fld, .error e⟩
        | (g2, .ok _) =>
          match ReorderOutputEdges g2 nid types.length info.resource_input_count
              info.index_mapping with
          | (g3, .error e) => ⟨g3, fld, .error e⟩
          | (g3, .ok _) =>
            match rewriteWhileFunction g3 nid fld types.length
                info.resource_input_count info.index_mapping "cond" with
            | (g4, fld4, .error e) => ⟨g4, fld4, .error e⟩
            | (g4, fld4, .ok _) =>
              match rewriteWhileFunction g4 nid fld4 types.length
                  info.resource_input_count info.index_mapping "body" with
              | (g5, fld5, .error e) => ⟨g5, fld5, .error e⟩
              | (g5, fld5, .ok _) => ⟨g5, fld5, .ok true⟩

/-- Embedding of `MaybeRewriteCallNode` (lines 378-456) for
`StatefulPartitionedCall` nodes.  `resource_input_count0` is the value of the
caller's local `int resource_input_count` before the call; the C++ declares
it without an initial value and `InputTypesNeedsRearrange` leaves it
untouched when no rearrangement is needed, yet line 394 reads it
(`if (!resource_input_count && !has_resource_output)`). -/
def MaybeRewriteCallNode (g : Graph) (nid : Nat) (fld : FunctionLibrary)
    (resource_input_count0 : Nat) : StepResult :=
  match getNode g nid with
  | none => ⟨g, fld, .error .internal⟩
  | some n =>
    match getTypeListAttr n "Tin" with
    | none => ⟨g, fld, .error .notFound⟩
    | some in_types =>
      let info := InputTypesNeedsRearrange in_types resource_input_count0 []
      match getTypeListAttr n "Tout" with
      | none => ⟨g, fld, .error .notFound⟩
      | some out_types =>
        let has_resource_output := out_types.contains DT_RESOURCE
        if info.resource_input_count == 0 && !has_resource_output then
          ⟨g, fld, .ok false⟩
        else
          match getFuncAttr n "f" with
          | none => ⟨g, fld, .error .notFound⟩
          | some fname =>
            match fldFind fld fname with
            | none => ⟨g, fld, .error .internal⟩
            | some fdef =>
              match FunctionDefToBodyHelper fdef with
              | .error e => ⟨g, fld, .error e⟩
              | .ok fbody =>
                match (if info.need_rewrite then
                    match ReorderInputEdges g nid info.index_mapping with
                    | (g1, .error e) => (g1, fbody.graph, Except.error e)
                    | (g1, .ok _) =>
                      match RearrangeArgNodes fbody.graph fbody.arg_nodes
                          info.index_mapping with
                      | (bg, .error e) =>
                        (updateNodeAttr g1 nid "Tin"
                          (.typeList (ShuffleInputDataTypeAttribute in_types
                            info.index_mapping)), bg, Except.error e)
                      | (bg, .ok _) =>
                        (updateNodeAttr g1 nid "Tin"
                          (.typeList (ShuffleInputDataTypeAttribute in_types
                            info.index_mapping)), bg, Except.ok ())
                  else (g, fbody.graph, Except.ok ())) with
                | (g1, _, .error e) => ⟨g1, fld, .error e⟩
                | (g1, bg1, .ok _) =>
                  if has_resource_output then
                    match CalculateRetvalRearrange bg1 fbody.ret_nodes [] [] with
                    | .error e => ⟨g1, fld, .error e⟩
                    | .ok (retval_index_mapping, resource_retval_to_arg) =>
                      match RearrangeOutputEdges nid g1 retval_index_mapping
                          resource_retval_to_arg with
                      | (g2, .error e) => ⟨g2, fld, .error e⟩
                      | (g2, .ok _) =>
                        let g3 := updateNodeAttr g2 nid "Tout"
                          (.typeList (ShuffleOutputDataTypeAttribute out_types
                            retval_index_mapping))
                        let bg2 := RearrangeRetvalNodes fbody.ret_nodes bg1
                          retval_index_mapping
                        match registerRewrittenFunction g3 nid fld "f" fname bg2 with
                        | (g4, fld4, .error e) => ⟨g4, fld4, .error e⟩
                        | (g4, fld4, .ok _) => ⟨g4, fld4, .ok true⟩
                  else
                    match registerRewrittenFunction g1 nid fld "f" fname bg1 with
                    | (g4, fld4, .error e) => ⟨g4, fld4, .error e⟩
                    | (g4, fld4, .ok _) => ⟨g4, fld4, .ok true⟩

/-- The input-edge loop of `MaybeRewriteIfNode` (lines 483-497): control
edges and the predicate edge at slot 0 are skipped (via the snapshot
filter); the rest move to `index_mapping.at(dst_input - 1) + 1`. -/
def reorderIfInputLoop (nid : Nat) (index_mapping : List Nat) :
    Graph → List Edge → Graph × Except Err Unit
  | g, [] => (g, .ok ())
  | g, e :: rest =>
    match index_mapping.get? (e.dst_input - 1) with
    | none => (g, .error .outOfRange)
    | some v =>
      reorderIfInputLoop nid index_mapping
        (AddEdge (RemoveEdge g e) e.src e.src_output nid (v + 1)) rest

/-- Snapshot-and-loop for the `If` input edges: non-control in-edges with
`dst_input != 0`. -/
def ReorderIfInputEdges (g : Graph) (nid : Nat) (index_mapping : List Nat) :
    Graph × Except Err Unit :=
  reorderIfInputLoop nid index_mapping g
    (g.edges.filter (fun e => !e.control && e.dst == nid && e.dst_input != 0))

/-- One iteration of the then/else loop of `MaybeRewriteIfNode` (lines
507-544).  `retval_index_mapping`/`resource_retval_to_arg` are the shared
accumulator maps (the C++ declares them once, before the loop). -/
def rewriteIfBranch (g : Graph) (nid : Nat) (fld : FunctionLibrary)
    (input_need_rearrange has_resource_output : Bool)
    (index_mapping : List Nat)
    (retval_index_mapping resource_retval_to_arg : IMap) (attr_name : String) :
    Graph × FunctionLibrary × IMap × IMap × Except Err Unit :=
  match getNode g nid with
  | none => (g, fld, retval_index_mapping, resource_retval_to_arg, .error .internal)
  | some n =>
    match getFuncAttr n attr_name with
    | none => (g, fld, retval_index_mapping, resource_retval_to_arg, .error .notFound)
    | some fname =>
      match fldFind fld fname with
      | none => (g, fld, retval_index_mapping, resource_retval_to_arg, .error .internal)
      | some fdef =>
        match FunctionDefToBodyHelper fdef with
        | .error e => (g, fld, retval_index_mapping, resource_retval_to_arg, .error e)
        | .ok fbody =>
          match (if input_need_rearrange then
              RearrangeArgNodes fbody.graph fbody.arg_nodes index_mapping
            else (fbody.graph, Except.ok ())) with
          | (_, .error e) =>
            (g, fld, retval_index_mapping, resource_retval_to_arg, .error e)
          | (bg1, .ok _) =>
            if has_resource_output then
              match CalculateRetvalRearrange bg1 fbody.ret_nodes
                  retval_index_mapping resource_retval_to_arg with
              | .error e =>
                (g, fld, retval_index_mapping, resource_retval_to_arg, .error e)
              | .ok (rm2, ra2) =>
                let bg2 := RearrangeRetvalNodes fbody.ret_nodes bg1 rm2
                match registerRewrittenFunction g nid fld attr_name fname bg2 with
                | (g2, fld2, .error e) => (g2, fld2, rm2, ra2, .error e)
                | (g2, fld2, .ok _) => (g2, fld2, rm2, ra2, .ok ())
            else
              match registerRewrittenFunction g nid fld attr_name fname bg1 with
              | (g2, fld2, .error e) =>
                (g2, fld2, retval_index_mapping, resource_retval_to_arg, .error e)
              | (g2, fld2, .ok _) =>
                (g2, fld2, retval_index_mapping, resource_retval_to_arg, .ok ())

/-- Embedding of `MaybeRewriteIfNode` (lines 458-580). -/
def MaybeRewriteIfNode (g : Graph) (nid : Nat) (fld : FunctionLibrary) :
    StepResult :=
  match getNode g nid with
  | none => ⟨g, fld, .error .internal⟩
  | some n =>
    match getTypeListAttr n "Tin" with
    | none => ⟨g, fld, .error .notFound⟩
    | some in_types =>
      let info := InputTypesNeedsRearrange in_types 0 []
      match getTypeListAttr n "Tout" with
      | none => ⟨g, fld, .error .notFound⟩
      | some out_types =>
        let has_resource_output := out_types.contains DT_RESOURCE
        if !info.need_rewrite && !has_resource_output then ⟨g, fld, .ok false⟩
        else
          match (if info.need_rewrite then
              match ReorderIfInputEdges g nid info.index_mapping with
              | (g1, .error e) => (g1, Except.error e)
              | (g1, .ok _) =>
                (updateNodeAttr g1 nid "Tin"
                  (.typeList (ShuffleInputDataTypeAttribute in_types
                    info.index_mapping)), Except.ok ())
            else (g, Except.ok ())) with
          | (g1, .error e) => ⟨g1, fld, .error e⟩
          | (g1, .ok _) =>
            match rewriteIfBranch g1 nid fld info.need_rewrite has_resource_output
                info.index_mapping [] [] "then_branch" with
            | (g2, fld2, _, _, .error e) => ⟨g2, fld2, .error e⟩
            | (g2, fld2, rm1, ra1, .ok _) =>
              match rewriteIfBranch g2 nid fld2 info.need_rewrite
                  has_resource_output info.index_mapping rm1 ra1 "else_branch" with
              | (g3, fld3, _, _, .error e) => ⟨g3, fld3, .error e⟩
              | (g3, fld3, rm2, ra2, .ok _) =>
                if has_resource_output then
                  match rearrangeOutputLoop nid rm2 ra2 1 g3
                      (g3.edges.filter (fun e => !e.control && e.src == nid)) with
                  | (g4, .error e) => ⟨g4, fld3, .error e⟩
                  | (g4, .ok _) =>
                    ⟨updateNodeAttr g4 nid "Tout"
                      (.typeList (ShuffleOutputDataTypeAttribute out_types rm2)),
                      fld3, .ok true⟩
                else ⟨g3, fld3, .ok true⟩

/-- Modelled from the spec: `GetAssociatedFunctions` (tf2xla_util.h, not among
the sources).  Per spec sections 2 and 4.5, a node's associated functions are
the functions referenced by name from its attributes (`cond`/`body` for
loops, `then_branch`/`else_branch` for conditionals, `f` for direct calls);
each entry is the referencing attribute's name paired with the function name.
Attribute maps of references are not modelled (treated as empty). -/
def GetAssociatedFunctions (n : Node) : List (String × String) :=
  n.attrs.filterMap (fun kv =>
    match kv.2 with
    | .func s => some (kv.1, s)
    | _ => none)

/-- Modelled from the spec: `Canonicalize(name, attrs)` builds the
memoization key from the function name and its attribute map; attribute maps
are not modelled (always empty), so the key reduces to the name. -/
def Canonicalize (name : String) : String := name

/-- Modelled from the spec: `RewriteAssociatedFunction` repoints the node at
the rewritten function by setting the referencing attribute to the new
name. -/
def RewriteAssociatedFunction (g : Graph) (nid : Nat)
    (attr_name new_name : String) : Graph :=
  updateNodeAttr g nid attr_name (.func new_name)

/-- The memoization map `canonicalized_name_to_new_name`: an entry holds
`some new_name` when the function was rewritten, `none` when it was
processed and found unchanged. -/
abbrev Memo := List (String × Option String)

def memoFind (memo : Memo) (k : String) : Option (Option String) :=
  (memo.find? (fun kv => kv.1 == k)).map (fun kv => kv.2)

/-- `(*canonicalized_name_to_new_name)[k] = v` (std::map operator[]:
overwrite or append). -/
def memoInsert (memo : Memo) (k : String) (v : Option String) : Memo :=
  if memo.any (fun kv => kv.1 == k) then
    memo.map (fun kv => if kv.1 == k then (k, v) else kv)
  else memo ++ [(k, v)]

/-- The second loop of `RearrangeFunctionArgumentForFunction` (lines
673-693): dispatch `While` / `StatefulPartitionedCall` / `If` nodes to their
rewriters over a snapshot of node ids.  The `0` passed to
`MaybeRewriteCallNode` is this model's choice for that function's
indeterminate local (see `MaybeRewriteCallNode`). -/
def processCallLikeNodes :
    Graph → FunctionLibrary → List Nat → Bool →
      Graph × FunctionLibrary × Bool × Except Err Unit
  | g, fld, [], modified => (g, fld, modified, .ok ())
  | g, fld, nid :: rest, modified =>
    match getNode g nid with
    | none => processCallLikeNodes g fld rest modified
    | some n =>
      if n.op == "While" then
        match MaybeRewriteWhileNode g nid fld with
        | ⟨g2, fld2, .error e⟩ => (g2, fld2, modified, .error e)
        | ⟨g2, fld2, .ok node_rewritten⟩ =>
          processCallLikeNodes g2 fld2 rest (modified || node_rewritten)
      else if n.op == "StatefulPartitionedCall" then
        match MaybeRewriteCallNode g nid fld 0 with
        | ⟨g2, fld2, .error e⟩ => (g2, fld2, modified, .error e)
        | ⟨g2, fld2, .ok node_rewritten⟩ =>
          processCallLikeNodes g2 fld2 rest (modified || node_rewritten)
      else if n.op == "If" then
        match MaybeRewriteIfNode g nid fld with
        | ⟨g2, fld2, .error e⟩ => (g2, fld2, modified, .error e)
        | ⟨g2, fld2, .ok node_rewritten⟩ =>
          processCallLikeNodes g2 fld2 rest (modified || node_rewritten)
      else processCallLikeNodes g fld rest modified

/-- Result of one recursive pass invocation: the library and memo map as
mutated in place, and either the `modified` flag or the error status. -/
structure PassResult where
  fld : FunctionLibrary
  memo : Memo
  res : Except Err Bool
  deriving DecidableEq

/-- The loop body over associated functions (lines 617-671), flattened over
`(node id, attribute name, function name)` triples.  `rec` is the recursive
pass invocation at the next (smaller) depth; a memoization hit skips it
entirely.  The memo entry is written only after `rec` returns (lines
645-658) — there is no in-progress marker. -/
def processAssocList
    (rec : String → String → FunctionLibrary → Memo → PassResult) :
    Graph → FunctionLibrary → Memo → Bool →
      List (Nat × String × String) →
      Graph × FunctionLibrary × Memo × Bool × Except Err Unit
  | g, fld, memo, modified, [] => (g, fld, memo, modified, .ok ())
  | g, fld, memo, modified, (nid, attr_name, name) :: rest =>
    let canonicalized_name := Canonicalize name
    match memoFind memo canonicalized_name with
    | some entry =>
      match entry with
      | some new_name =>
        processAssocList rec
          (RewriteAssociatedFunction g nid attr_name new_name) fld memo true rest
      | none => processAssocList rec g fld memo modified rest
    | none =>
      let new_name := UniqueFunctionName fld (name ++ "_rearrange_")
      match rec name new_name fld memo with
      | ⟨fld2, memo2, .error e⟩ => (g, fld2, memo2, modified, .error e)
      | ⟨fld2, memo2, .ok function_modified⟩ =>
        let memo3 := memoInsert memo2 canonicalized_name
          (if function_modified then some new_name else none)
        if function_modified then
          processAssocList rec
            (RewriteAssociatedFunction g nid attr_name new_name) fld2 memo3 true rest
        else processAssocList rec g fld2 memo3 modified rest

/-- The `(node, associated function)` work list gathered before any mutation
(lines 609-616), flattened. -/
def assocItems (g : Graph) : List (Nat × String × String) :=
  (g.nodes.filter (fun n => !(GetAssociatedFunctions n).isEmpty)).flatMap
    (fun n => (GetAssociatedFunctions n).map (fun af => (n.id, af.1, af.2)))

/-- Embedding of `RearrangeFunctionArgumentForFunction` (lines 584-711).
`fuel` bounds the recursion depth (the C++ recursion is unbounded and the
memo map cannot stop a cycle, because entries are only added after the
recursive call returns); attribute maps of function references are not
modelled, so the `attrs` parameter is dropped. -/
def RearrangeFunctionArgumentForFunction :
    Nat → String → String → FunctionLibrary → Memo → PassResult
  | 0, _, _, fld, memo => ⟨fld, memo, .error .outOfFuel⟩
  | fuel + 1, func_name, new_func_name, fld, memo =>
    match fldFind fld func_name with
    | none => ⟨fld, memo, .error .notFound⟩
    | some fdef =>
      let g := fdef.fgraph
      match processAssocList (RearrangeFunctionArgumentForFunction fuel)
          g fld memo false (assocItems g) with
      | (_, fld2, memo2, _, .error e) => ⟨fld2, memo2, .error e⟩
      | (g2, fld2, memo2, modified1, .ok _) =>
        match processCallLikeNodes g2 fld2 (g2.nodes.map (fun n => n.id))
            modified1 with
        | (_, fld3, _, .error e) => ⟨fld3, memo2, .error e⟩
        | (g3, fld3, modified2, .ok _) =>
          if modified2 then
            if func_name == new_func_name then
              ⟨ReplaceFunction fld3 new_func_name
                (GraphToFunctionDef g3 new_func_name), memo2, .ok true⟩
            else
              match AddFunctionDef fld3 (GraphToFunctionDef g3 new_func_name) with
              | .error e => ⟨fld3, memo2, .error e⟩
              | .ok fld4 => ⟨fld4, memo2, .ok true⟩
          else ⟨fld3, memo2, .ok false⟩

/-- The control edges of a graph (the in/out control dependencies). -/
def controlEdges (g : Graph) : List Edge :=
  g.edges.filter (fun e => e.control)

theorem eraseEdge_control_filter (e : Edge) (he : e.control = false) :
    ∀ l : List Edge, (eraseEdge l e).filter (fun x => x.control)
      = l.filter (fun x => x.control) := by
  intro l
  induction l with
  | nil => rfl
  | cons x xs ih =>
    simp only [eraseEdge]
    by_cases hx : x = e
    · rw [if_pos (beq_iff_eq.mpr hx)]
      subst hx
      rw [List.filter_cons_of_neg (by simp [he])]
    · rw [if_neg (by simpa using hx)]
      rw [List.filter_cons, List.filter_cons, ih]

theorem controlEdges_AddEdge (g : Graph) (a b c d : Nat) :
    controlEdges (AddEdge g a b c d) = controlEdges g := by
  simp [controlEdges, AddEdge, List.filter_append]

theorem controlEdges_RemoveEdge (g : Graph) (e : Edge) (he : e.control = false) :
    controlEdges (RemoveEdge g e) = controlEdges g :=
  eraseEdge_control_filter e he g.edges

theorem reorderInputLoop_control (nid : Nat) (m : List Nat) :
    ∀ es g, (∀ e ∈ es, e.control = false) →
      controlEdges (reorderInputLoop nid m g es).1 = controlEdges g := by
  intro es
  induction es with
  | nil => intro g _; rfl
  | cons e rest ih =>
    intro g hes
    simp only [reorderInputLoop]
    split
    · rfl
    · rw [ih _ (fun x hx => hes x (List.mem_cons_of_mem _ hx)),
        controlEdges_AddEdge, controlEdges_RemoveEdge _ _ (hes e (List.mem_cons_self _ _))]

theorem reorderOutputLoop_control (nid ic rc : Nat) (m : List Nat) :
    ∀ es g, (∀ e ∈ es, e.control = false) →
      controlEdges (reorderOutputLoop nid ic rc m g es).1 = controlEdges g := by
  intro es
  induction es with
  | nil => intro g _; rfl
  | cons e rest ih =>
    intro g hes
    have hrm : controlEdges (RemoveEdge g e) = controlEdges g :=
      controlEdges_RemoveEdge _ _ (hes e (List.mem_cons_self _ _))
    have hrest : ∀ x ∈ rest, x.control = false :=
      fun x hx => hes x (List.mem_cons_of_mem _ hx)
    simp only [reorderOutputLoop]
    split
    · rfl
    · split
      · rw [ih _ hrest, controlEdges_AddEdge, hrm]
      · split
        · exact hrm
        · rw [ih _ hrest, controlEdges_AddEdge, hrm]

theorem rearrangeOutputLoop_control (nid : Nat) (rm ra : IMap) (off : Nat) :
    ∀ es g, (∀ e ∈ es, e.control = false) →
      controlEdges (rearrangeOutputLoop nid rm ra off g es).1 = controlEdges g := by
  intro es
  induction es with
  | nil => intro g _; rfl
  | cons e rest ih =>
    intro g hes
    have hrm : controlEdges (RemoveEdge g e) = controlEdges g :=
      controlEdges_RemoveEdge _ _ (hes e (List.mem_cons_self _ _))
    have hrest : ∀ x ∈ rest, x.control = false :=
      fun x hx => hes x (List.mem_cons_of_mem _ hx)
    simp only [rearrangeOutputLoop]
    split
    · split
      · rfl
      · split
        · exact hrm
        · split
          · exact hrm
          · rw [ih _ hrest, controlEdges_AddEdge, hrm]
    · rw [ih _ hrest, controlEdges_AddEdge, hrm]

theorem mem_edge_filter_control {g : Graph} {p : Edge → Bool} :
    ∀ e ∈ g.edges.filter (fun e => !e.control && p e), e.control = false := by
  intro e he
  have := List.of_mem_filter he
  simp only [Bool.and_eq_true, Bool.not_eq_true'] at this
  exact this.1

/-- C10: the edge-reordering primitives used on a rewritten call-like node —
`ReorderInputEdges`, `ReorderOutputEdges` and `RearrangeOutputEdges` — skip
control edges entirely: the control edges of the graph (in particular every
control dependency into and out of the node) are exactly the same before and
after, on success and on error alike. -/
theorem C10_reorder_primitives_preserve_control_edges :
    (∀ g nid m, controlEdges (ReorderInputEdges g nid m).1 = controlEdges g) ∧
    (∀ g nid input_count resource_input_count m,
      controlEdges (ReorderOutputEdges g nid input_count
        resource_input_count m).1 = controlEdges g) ∧
    (∀ nid g rm ra, controlEdges (RearrangeOutputEdges nid g rm ra).1
      = controlEdges g) := by
  refine ⟨fun g nid m => ?_, fun g nid ic rc m => ?_, fun nid g rm ra => ?_⟩
  · exact reorderInputLoop_control nid m _ g
      (fun e he => mem_edge_filter_control e he)
  · exact reorderOutputLoop_control nid ic rc m _ g
      (fun e he => mem_edge_filter_control e he)
  · exact rearrangeOutputLoop_control nid rm ra 0 _ g
      (fun e he => mem_edge_filter_control e he)

/-- Is the `_Retval` node resource-typed? -/
def isResourceRetval (g : Graph) (rid : Nat) : Bool :=
  match getNode g rid with
  | some n => getTypeAttr n "T" == some DT_RESOURCE
  | none => false

/-- Well-formedness of a retval for `CalculateRetvalRearrange`: the node
exists with a typed `T` attribute, and a resource retval has an input edge
whose source exists and, when it is an `_Arg`, carries an integer `index`
attribute.  (This rules out the `NotFound`/`Internal` plumbing errors, so
that the only failure left is the `Unimplemented` one of interest.) -/
def retvalChainWF (g : Graph) (rid : Nat) : Bool :=
  match getNode g rid with
  | none => false
  | some n =>
    match getTypeAttr n "T" with
    | none => false
    | some t =>
      if t != DT_RESOURCE then true
      else
        match inputEdge g rid 0 with
        | none => false
        | some e =>
          match getNode g e.src with
          | none => false
          | some src =>
            if IsArg src then
              match getIntAttr src "index" with
              | none => false
              | some _ => true
            else true

theorem skipIdentity_arg (g : Graph) (m : Node) (fuel : Nat)
    (harg : IsArg m = true) : skipIdentity g (fuel + 1) m = some m := by
  have hop : m.op = "_Arg" := by
    unfold IsArg at harg
    exact beq_iff_eq.mp harg
  simp only [skipIdentity]
  rw [if_neg (by simp [IsIdentity, hop])]

theorem traces_of_direct_arg (g : Graph) (rid : Nat) (src : Node)
    (h : inputNode g rid 0 = some src) (harg : IsArg src = true) :
    tracesToArgViaIdentities g rid = true := by
  unfold tracesToArgViaIdentities traceRetvalSource
  rw [h]
  show (match skipIdentity g (g.nodes.length + 1) src with
    | some m => IsArg m
    | none => false) = true
  rw [skipIdentity_arg g src g.nodes.length harg]
  exact harg

theorem direct_not_arg_of_not_traces (g : Graph) (rid : Nat) (src : Node)
    (h : inputNode g rid 0 = some src)
    (hnt : tracesToArgViaIdentities g rid = false) : IsArg src = false := by
  by_contra hc
  rw [Bool.not_eq_false] at hc
  rw [traces_of_direct_arg g rid src h hc] at hnt
  exact absurd hnt (by simp)

theorem calcRetvalLoop_unimpl (g : Graph) :
    ∀ rets i rm ra,
      rets.all (fun r => retvalChainWF g r) = true →
      rets.any (fun r =>
        isResourceRetval g r && !tracesToArgViaIdentities g r) = true →
      calcRetvalLoop g rets i rm ra = .error .unimplemented := by
  intro rets
  induction rets with
  | nil =>
    intro i rm ra _ hbad
    simp at hbad
  | cons r rest ih =>
    intro i rm ra hwf hbad
    rw [List.all_cons, Bool.and_eq_true] at hwf
    obtain ⟨hwr, hwrest⟩ := hwf
    rw [List.any_cons] at hbad
    unfold retvalChainWF at hwr
    simp only [calcRetvalLoop]
    split
    · next heqn =>
      rw [heqn] at hwr
      exact absurd (show false = true from hwr) (by simp)
    · next n heqn =>
      rw [heqn] at hwr
      have h1 : (match getTypeAttr n "T" with
          | none => false
          | some t =>
            if t != DT_RESOURCE then true
            else
              match inputEdge g r 0 with
              | none => false
              | some e =>
                match getNode g e.src with
                | none => false
                | some src =>
                  if IsArg src then
                    match getIntAttr src "index" with
                    | none => false
                    | some _ => true
                  else true) = true := hwr
      split
      · next heqt =>
        rw [heqt] at h1
        exact absurd (show false = true from h1) (by simp)
      · next t heqt =>
        rw [heqt] at h1
        have h2 : (if (t != DT_RESOURCE) = true then true
            else
              match inputEdge g r 0 with
              | none => false
              | some e =>
                match getNode g e.src with
                | none => false
                | some src =>
                  if IsArg src then
                    match getIntAttr src "index" with
                    | none => false
                    | some _ => true
                  else true) = true := h1
        split
        · next ht =>
          have hres : isResourceRetval g r = false := by
            unfold isResourceRetval
            rw [heqn]
            show (getTypeAttr n "T" == some DT_RESOURCE) = false
            rw [heqt]
            have hne : t ≠ DT_RESOURCE := bne_iff_ne.mp ht
            simp [hne]
          rw [hres] at hbad
          simp only [Bool.false_and, Bool.false_or] at hbad
          exact ih (i + 1) _ _ hwrest hbad
        · next ht =>
          have ht2 : t = DT_RESOURCE := by
            rw [Bool.not_eq_true, bne_eq_false_iff_eq] at ht
            exact ht
          subst ht2
          rw [if_neg ht] at h2
          split
          · next heqe =>
            rw [heqe] at h2
            exact absurd (show false = true from h2) (by simp)
          · next e heqe =>
            rw [heqe] at h2
            have h3 : (match getNode g e.src with
                | none => false
                | some src =>
                  if IsArg src then
                    match getIntAttr src "index" with
                    | none => false
                    | some _ => true
                  else true) = true := h2
            split
            · next heqs =>
              rw [heqs] at h3
              exact absurd (show false = true from h3) (by simp)
            · next src heqs =>
              rw [heqs] at h3
              have h4 : (if IsArg src = true then
                    (match getIntAttr src "index" with
                    | none => false
                    | some _ => true)
                  else true) = true := h3
              split
              · rfl
              · next hnarg =>
                have harg : IsArg src = true := by
                  simpa using hnarg
                have hin : inputNode g r 0 = some src := by
                  unfold inputNode
                  rw [heqe]
                  exact heqs
                have htr := traces_of_direct_arg g r src hin harg
                have hres : isResourceRetval g r = true := by
                  unfold isResourceRetval
                  rw [heqn]
                  show (getTypeAttr n "T" == some DT_RESOURCE) = true
                  rw [heqt]
                  rfl
                rw [htr, hres] at hbad
                simp only [Bool.not_true, Bool.and_false, Bool.false_or] at hbad
                rw [if_pos harg] at h4
                split
                · next heqi =>
                  rw [heqi] at h4
                  exact absurd (show false = true from h4) (by simp)
                · exact ih (i + 1) _ _ hwrest hbad

theorem calcRetvalLoop_ok_traces (g : Graph) :
    ∀ rets i rm ra out, calcRetvalLoop g rets i rm ra = .ok out →
      ∀ r2 ∈ rets, isResourceRetval g r2 = true →
        tracesToArgViaIdentities g r2 = true := by
  intro rets
  induction rets with
  | nil =>
    intro i rm ra out _ r2 hr2
    exact absurd hr2 (List.not_mem_nil r2)
  | cons r rest ih =>
    intro i rm ra out h r2 hr2 hres2
    simp only [calcRetvalLoop] at h
    split at h
    · exact Except.noConfusion h
    · next n heqn =>
      split at h
      · exact Except.noConfusion h
      · next t heqt =>
        split at h
        · next ht =>
          rcases List.mem_cons.mp hr2 with he | hm
          · subst he
            have hfalse : isResourceRetval g r2 = false := by
              unfold isResourceRetval
              rw [heqn]
              show (getTypeAttr n "T" == some DT_RESOURCE) = false
              rw [heqt]
              have hne : t ≠ DT_RESOURCE := bne_iff_ne.mp ht
              simp [hne]
            rw [hfalse] at hres2
            exact absurd hres2 (by simp)
          · exact ih _ _ _ _ h r2 hm hres2
        · next ht =>
          split at h
          · exact Except.noConfusion h
          · next e heqe =>
            split at h
            · exact Except.noConfusion h
            · next src heqs =>
              split at h
              · exact Except.noConfusion h
              · next hnarg =>
                split at h
                · exact Except.noConfusion h
                · next idx heqi =>
                  rcases List.mem_cons.mp hr2 with he | hm
                  · subst he
                    have harg : IsArg src = true := by simpa using hnarg
                    have hin : inputNode g r2 0 = some src := by
                      unfold inputNode
                      rw [heqe]
                      exact heqs
                    exact traces_of_direct_arg g r2 src hin harg
                  · exact ih _ _ _ _ h r2 hm hres2

/-- Scenario D callee body: `_Arg[0]` (float), a `VarHandleOp` producing a
resource internally, and a resource `_Retval[0]` fed by the `VarHandleOp`
rather than by any `_Arg`. -/
def c2CalleeGraph : Graph :=
  ⟨[⟨0, "arg0", "_Arg", [("T", .type DT_FLOAT), ("index", .int 0)]⟩,
    ⟨1, "var", "VarHandleOp", []⟩,
    ⟨2, "ret0", "_Retval", [("T", .type DT_RESOURCE), ("index", .int 0)]⟩],
   [⟨1, 0, 2, 0, false⟩]⟩

/-- Scenario D library: just the bad callee. -/
def c2Fld : FunctionLibrary := [⟨"badf", c2CalleeGraph⟩]

/-- Scenario D call site: a `StatefulPartitionedCall` with a resource-typed
declared output, referencing `badf`. -/
def c2Graph : Graph :=
  ⟨[⟨10, "call", "StatefulPartitionedCall",
      [("Tin", .typeList [DT_FLOAT]), ("Tout", .typeList [DT_RESOURCE]),
       ("f", .func "badf")]⟩], []⟩

/-- C2: for a direct function call node with a resource-typed declared
output, (i) whenever some resource-typed `_Retval` of the callee body does
not trace back (through zero or more identity nodes) to an `_Arg`, the
retval analysis returns `Unimplemented` (given the body is otherwise
well-formed); (ii) conversely, whenever the analysis succeeds, every
resource-typed `_Retval` does trace back (it in fact comes from an `_Arg`
directly); and (iii) on the concrete Scenario D input the whole call-node
rewrite returns `Unimplemented` with the function library left completely
unmodified — no new function is registered. -/
theorem C2_resource_retval_must_come_from_arg :
    (∀ g rets rm ra,
      rets.all (fun r => retvalChainWF g r) = true →
      rets.any (fun r =>
        isResourceRetval g r && !tracesToArgViaIdentities g r) = true →
      CalculateRetvalRearrange g rets rm ra = .error .unimplemented) ∧
    (∀ g rets rm ra out, CalculateRetvalRearrange g rets rm ra = .ok out →
      ∀ r ∈ rets, isResourceRetval g r = true →
        tracesToArgViaIdentities g r = true) ∧
    (isResourceRetval c2CalleeGraph 2 = true ∧
     tracesToArgViaIdentities c2CalleeGraph 2 = false ∧
     MaybeRewriteCallNode c2Graph 10 c2Fld 0
       = ⟨c2Graph, c2Fld, .error .unimplemented⟩) :=
  ⟨fun g rets rm ra hwf hbad => calcRetvalLoop_unimpl g rets 0 rm ra hwf hbad,
   fun g rets rm ra out h => calcRetvalLoop_ok_traces g rets 0 rm ra out h,
   by decide, by decide, by decide⟩

/-- Witness for C2 at the Scenario D input. -/
theorem C2_resource_retval_must_come_from_arg_witness :
    CalculateRetvalRearrange c2CalleeGraph [2] [] [] = .error .unimplemented :=
  C2_resource_retval_must_come_from_arg.1 c2CalleeGraph [2] [] []
    (by decide) (by decide)

/-- The While body check passes position `i` when: the retval is
non-resource, or it traces (through identities) to an `_Arg` whose `index`
is exactly `i`. -/
def whileRetvalOkAt (bg : Graph) (rid i : Nat) : Bool :=
  match getNode bg rid with
  | none => false
  | some n =>
    match getTypeAttr n "T" with
    | none => false
    | some t =>
      if t != DT_RESOURCE then true
      else
        match inputNode bg rid 0 with
        | none => false
        | some n0 =>
          match skipIdentity bg (bg.nodes.length + 1) n0 with
          | none => false
          | some src =>
            if IsArg src then
              match getIntAttr src "index" with
              | none => false
              | some idx => idx == Int.ofNat i
            else false

/-- Well-formedness for the While body check (excludes the `NotFound`
plumbing errors): the retval exists with a typed `T`, and a resource retval
has a traceable source which, when an `_Arg`, carries an integer index. -/
def whileRetvalWF (bg : Graph) (rid : Nat) : Bool :=
  match getNode bg rid with
  | none => false
  | some n =>
    match getTypeAttr n "T" with
    | none => false
    | some t =>
      if t != DT_RESOURCE then true
      else
        match inputNode bg rid 0 with
        | none => false
        | some n0 =>
          match skipIdentity bg (bg.nodes.length + 1) n0 with
          | none => false
          | some src =>
            if IsArg src then (getIntAttr src "index").isSome else true

/-- Position `i` violates the While loop-invariant-resource rule: the retval
is resource-typed and its traced source is not an `_Arg`, or is an `_Arg`
whose index differs from `i`. -/
def whileRetvalBadAt (bg : Graph) (rid i : Nat) : Bool :=
  isResourceRetval bg rid &&
    (match traceRetvalSource bg rid with
     | none => true
     | some src =>
       !(IsArg src) || getIntAttr src "index" != some (Int.ofNat i))

theorem checkWhileBodyLoop_ok (bg : Graph) :
    ∀ rets i,
      (rets.enumFrom i).all (fun p => whileRetvalOkAt bg p.2 p.1) = true →
      checkWhileBodyLoop bg rets i = .ok () := by
  intro rets
  induction rets with
  | nil => intro i _; rfl
  | cons r rest ih =>
    intro i hall
    have hall2 : (whileRetvalOkAt bg r i &&
        (rest.enumFrom (i + 1)).all (fun p => whileRetvalOkAt bg p.2 p.1)) = true := hall
    rw [Bool.and_eq_true] at hall2
    obtain ⟨hok, hrest⟩ := hall2
    unfold whileRetvalOkAt at hok
    simp only [checkWhileBodyLoop]
    split
    · next heqn =>
      rw [heqn] at hok
      exact absurd (show false = true from hok) (by simp)
    · next n heqn =>
      rw [heqn] at hok
      have h1 : (match getTypeAttr n "T" with
          | none => false
          | some t =>
            if t != DT_RESOURCE then true
            else
              match inputNode bg r 0 with
              | none => false
              | some n0 =>
                match skipIdentity bg (bg.nodes.length + 1) n0 with
                | none => false
                | some src =>
                  if IsArg src then
                    match getIntAttr src "index" with
                    | none => false
                    | some idx => idx == Int.ofNat i
                  else false) = true := hok
      split
      · next heqt =>
        rw [heqt] at h1
        exact absurd (show false = true from h1) (by simp)
      · next t heqt =>
        rw [heqt] at h1
        split
        · exact ih (i + 1) hrest
        · next ht =>
          have h1b : (if (t != DT_RESOURCE) = true then true
              else
                match inputNode bg r 0 with
                | none => false
                | some n0 =>
                  match skipIdentity bg (bg.nodes.length + 1) n0 with
                  | none => false
                  | some src =>
                    if IsArg src then
                      match getIntAttr src "index" with
                      | none => false
                      | some idx => idx == Int.ofNat i
                    else false) = true := h1
          rw [if_neg ht] at h1b
          split
          · next heqin =>
            rw [heqin] at h1b
            exact absurd (show false = true from h1b) (by simp)
          · next n0 heqin =>
            rw [heqin] at h1b
            have h2 : (match skipIdentity bg (bg.nodes.length + 1) n0 with
                | none => false
                | some src =>
                  if IsArg src then
                    match getIntAttr src "index" with
                    | none => false
                    | some idx => idx == Int.ofNat i
                  else false) = true := h1b
            split
            · next heqsk =>
              rw [heqsk] at h2
              exact absurd (show false = true from h2) (by simp)
            · next src heqsk =>
              rw [heqsk] at h2
              have h3 : (if IsArg src = true then
                  (match getIntAttr src "index" with
                  | none => false
                  | some idx => idx == Int.ofNat i)
                else false) = true := h2
              split
              · next harg =>
                rw [if_pos harg] at h3
                split
                · next heqi =>
                  rw [heqi] at h3
                  exact absurd (show false = true from h3) (by simp)
                · next idx heqi =>
                  rw [heqi] at h3
                  have hidx : idx = Int.ofNat i :=
                    beq_iff_eq.mp (show (idx == Int.ofNat i) = true from h3)
                  rw [if_neg (by simp [hidx])]
                  exact ih (i + 1) hrest
              · next harg =>
                rw [if_neg harg] at h3
                exact absurd (show false = true from h3) (by simp)

theorem checkWhileBodyLoop_unimpl (bg : Graph) :
    ∀ rets i,
      rets.all (fun r => whileRetvalWF bg r) = true →
      (rets.enumFrom i).any (fun p => whileRetvalBadAt bg p.2 p.1) = true →
      checkWhileBodyLoop bg rets i = .error .unimplemented := by
  intro rets
  induction rets with
  | nil => intro i _ hbad; simp at hbad
  | cons r rest ih =>
    intro i hwf hbad
    rw [List.all_cons, Bool.and_eq_true] at hwf
    obtain ⟨hwr, hwrest⟩ := hwf
    have hbad2 : (whileRetvalBadAt bg r i ||
        (rest.enumFrom (i + 1)).any (fun p => whileRetvalBadAt bg p.2 p.1)) = true := hbad
    unfold whileRetvalWF at hwr
    simp only [checkWhileBodyLoop]
    split
    · next heqn =>
      rw [heqn] at hwr
      exact absurd (show false = true from hwr) (by simp)
    · next n heqn =>
      rw [heqn] at hwr
      have h1 : (match getTypeAttr n "T" with
          | none => false
          | some t =>
            if t != DT_RESOURCE then true
            else
              match inputNode bg r 0 with
              | none => false
              | some n0 =>
                match skipIdentity bg (bg.nodes.length + 1) n0 with
                | none => false
                | some src =>
                  if IsArg src then (getIntAttr src "index").isSome
                  else true) = true := hwr
      split
      · next heqt =>
        rw [heqt] at h1
        exact absurd (show false = true from h1) (by simp)
      · next t heqt =>
        rw [heqt] at h1
        split
        · next ht =>
          -- non-resource head: the bad entry is in the tail
          have hres : isResourceRetval bg r = false := by
            unfold isResourceRetval
            rw [heqn]
            show (getTypeAttr n "T" == some DT_RESOURCE) = false
            rw [heqt]
            have hne : t ≠ DT_RESOURCE := bne_iff_ne.mp ht
            simp [hne]
          rw [show whileRetvalBadAt bg r i = false from by
            unfold whileRetvalBadAt; rw [hres]; rfl] at hbad2
          rw [Bool.false_or] at hbad2
          exact ih (i + 1) hwrest hbad2
        · next ht =>
          have h1b : (if (t != DT_RESOURCE) = true then true
              else
                match inputNode bg r 0 with
                | none => false
                | some n0 =>
                  match skipIdentity bg (bg.nodes.length + 1) n0 with
                  | none => false
                  | some src =>
                    if IsArg src then (getIntAttr src "index").isSome
                    else true) = true := h1
          rw [if_neg ht] at h1b
          split
          · next heqin =>
            rw [heqin] at h1b
            exact absurd (show false = true from h1b) (by simp)
          · next n0 heqin =>
            rw [heqin] at h1b
            have h2 : (match skipIdentity bg (bg.nodes.length + 1) n0 with
                | none => false
                | some src =>
                  if IsArg src then (getIntAttr src "index").isSome
                  else true) = true := h1b
            split
            · next heqsk =>
              rw [heqsk] at h2
              exact absurd (show false = true from h2) (by simp)
            · next src heqsk =>
              rw [heqsk] at h2
              have htrace : traceRetvalSource bg r = some src := by
                unfold traceRetvalSource
                rw [heqin]
                exact heqsk
              have h3w : (if IsArg src = true then
                  (getIntAttr src "index").isSome else true) = true := h2
              split
              · next harg =>
                rw [if_pos harg] at h3w
                split
                · next heqi =>
                  rw [heqi] at h3w
                  exact absurd (show false = true from h3w) (by simp)
                · next idx heqi =>
                  split
                  · rfl
                  · next hne =>
                    -- idx = i: head not bad, recurse
                    have hidx : idx = Int.ofNat i := by
                      have := hne
                      rw [Bool.not_eq_true, bne_eq_false_iff_eq] at this
                      exact this
                    have hheadbad : whileRetvalBadAt bg r i = false := by
                      unfold whileRetvalBadAt
                      rw [htrace]
                      have h3 : (!(IsArg src) ||
                          getIntAttr src "index" != some (Int.ofNat i)) = false := by
                        rw [harg, heqi, hidx]
                        simp
                      rw [show (match some src with
                          | none => true
                          | some src2 =>
                            !(IsArg src2) ||
                              getIntAttr src2 "index" != some (Int.ofNat i))
                          = (!(IsArg src) ||
                              getIntAttr src "index" != some (Int.ofNat i)) from rfl]
                      rw [h3]
                      simp
                    rw [hheadbad, Bool.false_or] at hbad2
                    exact ih (i + 1) hwrest hbad2
              · rfl

/-- Scenario B body (good case): resource `_Retval[0]` returns `_Arg[0]`
unchanged; `_Retval[1]` is the float loop variable. -/
def c3GoodBodyGraph : Graph :=
  ⟨[⟨0, "a0", "_Arg", [("T", .type DT_RESOURCE), ("index", .int 0)]⟩,
    ⟨1, "a1", "_Arg", [("T", .type DT_FLOAT), ("index", .int 1)]⟩,
    ⟨2, "r0", "_Retval", [("T", .type DT_RESOURCE), ("index", .int 0)]⟩,
    ⟨3, "r1", "_Retval", [("T", .type DT_FLOAT), ("index", .int 1)]⟩],
   [⟨0, 0, 2, 0, false⟩, ⟨1, 0, 3, 0, false⟩]⟩

/-- A trivial loop condition body for two loop variables. -/
def c3GoodCondGraph : Graph :=
  ⟨[⟨0, "a0", "_Arg", [("T", .type DT_RESOURCE), ("index", .int 0)]⟩,
    ⟨1, "a1", "_Arg", [("T", .type DT_FLOAT), ("index", .int 1)]⟩,
    ⟨2, "pred", "Less", []⟩,
    ⟨3, "r0", "_Retval", [("T", .type DT_BOOL), ("index", .int 0)]⟩],
   [⟨2, 0, 3, 0, false⟩]⟩

def c3GoodFld : FunctionLibrary :=
  [⟨"goodcond", c3GoodCondGraph⟩, ⟨"goodbody", c3GoodBodyGraph⟩]

/-- Scenario B While node: `T = [resource, float]` needs rearrangement. -/
def c3GoodGraph : Graph :=
  ⟨[⟨30, "loop", "While",
      [("T", .typeList [DT_RESOURCE, DT_FLOAT]),
       ("cond", .func "goodcond"), ("body", .func "goodbody")]⟩], []⟩

/-- A body over `T = [resource, float, resource]` that swaps the two
resources: `_Retval[0]` comes from `_Arg[2]` and `_Retval[2]` from
`_Arg[0]`. -/
def c3SwapBodyGraph : Graph :=
  ⟨[⟨0, "a0", "_Arg", [("T", .type DT_RESOURCE), ("index", .int 0)]⟩,
    ⟨1, "a1", "_Arg", [("T", .type DT_FLOAT), ("index", .int 1)]⟩,
    ⟨2, "a2", "_Arg", [("T", .type DT_RESOURCE), ("index", .int 2)]⟩,
    ⟨3, "r0", "_Retval", [("T", .type DT_RESOURCE), ("index", .int 0)]⟩,
    ⟨4, "r1", "_Retval", [("T", .type DT_FLOAT), ("index", .int 1)]⟩,
    ⟨5, "r2", "_Retval", [("T", .type DT_RESOURCE), ("index", .int 2)]⟩],
   [⟨2, 0, 3, 0, false⟩, ⟨1, 0, 4, 0, false⟩, ⟨0, 0, 5, 0, false⟩]⟩

def c3SwapCondGraph : Graph :=
  ⟨[⟨0, "a0", "_Arg", [("T", .type DT_RESOURCE), ("index", .int 0)]⟩,
    ⟨1, "a1", "_Arg", [("T", .type DT_FLOAT), ("index", .int 1)]⟩,
    ⟨2, "a2", "_Arg", [("T", .type DT_RESOURCE), ("index", .int 2)]⟩,
    ⟨3, "pred", "Less", []⟩,
    ⟨4, "r0", "_Retval", [("T", .type DT_BOOL), ("index", .int 0)]⟩],
   [⟨3, 0, 4, 0, false⟩]⟩

def c3SwapFld : FunctionLibrary :=
  [⟨"swapcond", c3SwapCondGraph⟩, ⟨"swapbody", c3SwapBodyGraph⟩]

/-- A While node over `[resource, float, resource]` whose body swaps the two
resources — its inputs do need rearrangement. -/
def c3SwapGraph : Graph :=
  ⟨[⟨40, "loop", "While",
      [("T", .typeList [DT_RESOURCE, DT_FLOAT, DT_RESOURCE]),
       ("cond", .func "swapcond"), ("body", .func "swapbody")]⟩], []⟩

/-- A body over `T = [resource, resource]` (resources already contiguous)
that swaps the two resources. -/
def c3ContigBodyGraph : Graph :=
  ⟨[⟨0, "a0", "_Arg", [("T", .type DT_RESOURCE), ("index", .int 0)]⟩,
    ⟨1, "a1", "_Arg", [("T", .type DT_RESOURCE), ("index", .int 1)]⟩,
    ⟨2, "r0", "_Retval", [("T", .type DT_RESOURCE), ("index", .int 0)]⟩,
    ⟨3, "r1", "_Retval", [("T", .type DT_RESOURCE), ("index", .int 1)]⟩],
   [⟨1, 0, 2, 0, false⟩, ⟨0, 0, 3, 0, false⟩]⟩

def c3ContigFld : FunctionLibrary :=
  [⟨"ccond", c3GoodCondGraph⟩, ⟨"cbody", c3ContigBodyGraph⟩]

/-- A While node over `[resource, resource]` — all inputs resource, so `T`
needs no rearrangement — whose body nevertheless swaps the two resources. -/
def c3ContigGraph : Graph :=
  ⟨[⟨50, "loop", "While",
      [("T", .typeList [DT_RESOURCE, DT_RESOURCE]),
       ("cond", .func "ccond"), ("body", .func "cbody")]⟩], []⟩

/-- Counterexample to the original phrasing of C3 ("for every While node"):
a While node over `[resource, resource]` whose body swaps the two resource
loop variables (resource `_Retval[0]` traces to `_Arg[1]`), yet
`MaybeRewriteWhileNode` returns OK with `node_rewritten = false` and touches
nothing — `InputTypesNeedsRearrange` reports no rearrangement needed, so the
body check never runs and no `Unimplemented` error is raised. -/
theorem C3_counterexample_contiguous_swap_not_detected :
    (traceRetvalSource c3ContigBodyGraph 2).bind
        (fun n => getIntAttr n "index") = some 1 ∧
    isResourceRetval c3ContigBodyGraph 2 = true ∧
    (InputTypesNeedsRearrange [DT_RESOURCE, DT_RESOURCE] 0 []).need_rewrite
      = false ∧
    MaybeRewriteWhileNode c3ContigGraph 50 c3ContigFld
      = ⟨c3ContigGraph, c3ContigFld, .ok false⟩ := by
  refine ⟨by decide, by decide, by decide, by decide⟩

/-- C3 (amended: the invariant is enforced only for While nodes whose input
types need rearrangement; a While whose resources are already contiguous at
the end is returned untouched without any body check).  For a While node
that is rewritten: (i) the body check succeeds when every resource-typed
loop-carried `_Retval[i]` traces (through zero or more identities) to the
`_Arg` with the identical index `i`; (ii) it returns `Unimplemented` when
some resource `_Retval[i]` traces to a non-`_Arg` or to an `_Arg` with a
different index (given well-formed retvals); (iii) on the concrete Scenario
B graph (body returns its resource argument unchanged at index 0) the whole
While rewrite proceeds with no error; and (iv) on a While needing
rearrangement whose body swaps two resources, the rewrite returns
`Unimplemented`. -/
theorem C3_while_resource_retval_same_index :
    (∀ bg rets i,
      (rets.enumFrom i).all (fun p => whileRetvalOkAt bg p.2 p.1) = true →
      checkWhileBodyLoop bg rets i = .ok ()) ∧
    (∀ bg rets i,
      rets.all (fun r => whileRetvalWF bg r) = true →
      (rets.enumFrom i).any (fun p => whileRetvalBadAt bg p.2 p.1) = true →
      checkWhileBodyLoop bg rets i = .error .unimplemented) ∧
    (MaybeRewriteWhileNode c3GoodGraph 30 c3GoodFld).res = .ok true ∧
    (MaybeRewriteWhileNode c3SwapGraph 40 c3SwapFld).res
      = .error .unimplemented :=
  ⟨fun bg rets i h => checkWhileBodyLoop_ok bg rets i h,
   fun bg rets i hwf hbad => checkWhileBodyLoop_unimpl bg rets i hwf hbad,
   by decide, by decide⟩

/-- Witness for C3 at the two concrete While bodies. -/
theorem C3_while_resource_retval_same_index_witness :
    checkWhileBodyLoop c3GoodBodyGraph [2, 3] 0 = .ok () ∧
    checkWhileBodyLoop c3SwapBodyGraph [3, 4, 5] 0 = .error .unimplemented :=
  ⟨C3_while_resource_retval_same_index.1 c3GoodBodyGraph [2, 3] 0 (by decide),
   C3_while_resource_retval_same_index.2.1 c3SwapBodyGraph [3, 4, 5] 0
     (by decide) (by decide)⟩

theorem eraseEdge_filter (p : Edge → Bool) (e : Edge) (he : p e = false) :
    ∀ l : List Edge, (eraseEdge l e).filter p = l.filter p := by
  intro l
  induction l with
  | nil => rfl
  | cons x xs ih =>
    simp only [eraseEdge]
    by_cases hx : x = e
    · rw [if_pos (beq_iff_eq.mpr hx)]
      subst hx
      rw [List.filter_cons_of_neg (by simp [he])]
    · rw [if_neg (by simpa using hx)]
      rw [List.filter_cons, List.filter_cons, ih]

/-- Non-control in-edges of `nid` at the predicate slot 0. -/
def predicateEdges (g : Graph) (nid : Nat) : List Edge :=
  g.edges.filter (fun e => !e.control && e.dst == nid && e.dst_input == 0)

theorem reorderIfInputLoop_predicate (nid : Nat) (m : List Nat) :
    ∀ es g, (∀ e ∈ es, e.dst_input ≠ 0) →
      predicateEdges (reorderIfInputLoop nid m g es).1 nid
        = predicateEdges g nid := by
  intro es
  induction es with
  | nil => intro g _; rfl
  | cons e rest ih =>
    intro g hes
    simp only [reorderIfInputLoop]
    split
    · rfl
    · rw [ih _ (fun x hx => hes x (List.mem_cons_of_mem _ hx))]
      show predicateEdges (AddEdge (RemoveEdge g e) _ _ _ _) nid = _
      unfold predicateEdges AddEdge RemoveEdge
      simp only [List.filter_append]
      rw [eraseEdge_filter _ e
        (by simp [hes e (List.mem_cons_self _ _)])]
      simp

/-- The then/else branch graph for the C7 scenario: `_Arg[0]` resource,
`_Arg[1]` float, one float `_Retval[0]`. -/
def c7BranchGraph : Graph :=
  ⟨[⟨0, "a0", "_Arg", [("T", .type DT_RESOURCE), ("index", .int 0)]⟩,
    ⟨1, "a1", "_Arg", [("T", .type DT_FLOAT), ("index", .int 1)]⟩,
    ⟨2, "r0", "_Retval", [("T", .type DT_FLOAT), ("index", .int 0)]⟩],
   [⟨1, 0, 2, 0, false⟩]⟩

def c7Fld : FunctionLibrary :=
  [⟨"thenf", c7BranchGraph⟩, ⟨"elsef", c7BranchGraph⟩]

/-- Scenario C graph: an `If` node (id 60) with predicate at input slot 0,
a resource at slot 1 and a float at slot 2 (`Tin = [resource, float]` — the
predicate is not part of `Tin`). -/
def c7Graph : Graph :=
  ⟨[⟨1, "p", "Greater", []⟩,
    ⟨2, "v", "VarHandleOp", []⟩,
    ⟨3, "x", "Const", []⟩,
    ⟨60, "cond", "If",
      [("Tin", .typeList [DT_RESOURCE, DT_FLOAT]),
       ("Tout", .typeList [DT_FLOAT]),
       ("then_branch", .func "thenf"), ("else_branch", .func "elsef")]⟩],
   [⟨1, 0, 60, 0, false⟩, ⟨2, 0, 60, 1, false⟩, ⟨3, 0, 60, 2, false⟩]⟩

/-- C7: the `If` input-edge reordering never touches the predicate input:
(i) in general, the non-control in-edges at slot 0 of the node are exactly
the same before and after `ReorderIfInputEdges` (the loop runs over a
snapshot that excludes slot 0 and control edges, and re-adds every other
edge at `index_mapping[i-1] + 1 >= 1`); and (ii) on the Scenario C input
`[pred, resource, float]`, after the full `If` rewrite the predicate edge is
still at slot 0, the float input feeds slot 1, the resource feeds slot 2,
and `Tin` reads `[float, resource]`. -/
theorem C7_if_predicate_preserved_at_slot_zero :
    (∀ g nid m, predicateEdges (ReorderIfInputEdges g nid m).1 nid
      = predicateEdges g nid) ∧
    ((MaybeRewriteIfNode c7Graph 60 c7Fld).res = .ok true ∧
     (MaybeRewriteIfNode c7Graph 60 c7Fld).g.edges
       = [⟨1, 0, 60, 0, false⟩, ⟨2, 0, 60, 2, false⟩, ⟨3, 0, 60, 1, false⟩] ∧
     (getNode (MaybeRewriteIfNode c7Graph 60 c7Fld).g 60).bind
        (fun n => getTypeListAttr n "Tin")
       = some [DT_FLOAT, DT_RESOURCE]) := by
  refine ⟨fun g nid m => ?_, by decide, by decide, by decide⟩
  unfold ReorderIfInputEdges
  apply reorderIfInputLoop_predicate
  intro e he
  have := List.of_mem_filter he
  simp only [Bool.and_eq_true] at this
  simpa using this.2

theorem mapFind?_insert_preserve (m : IMap) (k2 v2 k v : Nat)
    (h : mapFind? m k = some v) :
    mapFind? (mapInsert m k2 v2) k = some v := by
  unfold mapInsert
  split
  · exact h
  · unfold mapFind? at h ⊢
    cases hf : m.find? (fun kv => kv.1 == k) with
    | none => rw [hf] at h; exact absurd h (by simp)
    | some kv =>
      rw [List.find?_append, hf]
      rw [hf] at h
      exact h

theorem calcRetvalLoop_first_insert_wins (g : Graph) :
    ∀ rets i rm0 ra0 rm ra,
      calcRetvalLoop g rets i rm0 ra0 = .ok (rm, ra) →
      ∀ k v, mapFind? ra0 k = some v → mapFind? ra k = some v := by
  intro rets
  induction rets with
  | nil =>
    intro i rm0 ra0 rm ra h k v hf
    simp only [calcRetvalLoop] at h
    injection h with h
    injection h with h1 h2
    subst h2
    exact hf
  | cons r rest ih =>
    intro i rm0 ra0 rm ra h k v hf
    simp only [calcRetvalLoop] at h
    split at h
    · exact Except.noConfusion h
    · split at h
      · exact Except.noConfusion h
      · split at h
        · exact ih _ _ _ _ _ h k v hf
        · split at h
          · exact Except.noConfusion h
          · split at h
            · exact Except.noConfusion h
            · split at h
              · exact Except.noConfusion h
              · split at h
                · exact Except.noConfusion h
                · exact ih _ _ _ _ _ h k v
                    (mapFind?_insert_preserve ra0 _ _ k v hf)

/-- The C8 then-branch: resource `_Retval[0]` comes directly from
`_Arg[0]`. -/
def c8ThenGraph : Graph :=
  ⟨[⟨0, "a0", "_Arg", [("T", .type DT_RESOURCE), ("index", .int 0)]⟩,
    ⟨1, "a1", "_Arg", [("T", .type DT_RESOURCE), ("index", .int 1)]⟩,
    ⟨2, "r0", "_Retval", [("T", .type DT_RESOURCE), ("index", .int 0)]⟩],
   [⟨0, 0, 2, 0, false⟩]⟩

/-- The C8 else-branch: the same resource `_Retval[0]` comes directly from
`_Arg[1]` instead — a mismatched per-branch resource position. -/
def c8ElseGraph : Graph :=
  ⟨[⟨0, "a0", "_Arg", [("T", .type DT_RESOURCE), ("index", .int 0)]⟩,
    ⟨1, "a1", "_Arg", [("T", .type DT_RESOURCE), ("index", .int 1)]⟩,
    ⟨2, "r0", "_Retval", [("T", .type DT_RESOURCE), ("index", .int 0)]⟩],
   [⟨1, 0, 2, 0, false⟩]⟩

def c8Fld : FunctionLibrary :=
  [⟨"thenmis", c8ThenGraph⟩, ⟨"elsemis", c8ElseGraph⟩]

/-- An `If` node whose branches source resource retval 0 from different
`_Arg` indices. -/
def c8Graph : Graph :=
  ⟨[⟨80, "cond", "If",
      [("Tin", .typeList [DT_RESOURCE, DT_RESOURCE]),
       ("Tout", .typeList [DT_RESOURCE]),
       ("then_branch", .func "thenmis"), ("else_branch", .func "elsemis")]⟩],
   []⟩

/-- Counterexample to C8 as stated: the two branches of the `If` node source
resource retval 0 from `_Arg[0]` and `_Arg[1]` respectively (both direct
`_Arg` inputs, mismatched positions), yet `MaybeRewriteIfNode` succeeds with
`node_rewritten = true` — no `Unimplemented` is returned. -/
theorem C8_counterexample_mismatched_branches_accepted :
    (traceRetvalSource c8ThenGraph 2).bind (fun n => getIntAttr n "index")
      = some 0 ∧
    (traceRetvalSource c8ElseGraph 2).bind (fun n => getIntAttr n "index")
      = some 1 ∧
    (MaybeRewriteIfNode c8Graph 80 c8Fld).res = .ok true := by
  refine ⟨by decide, by decide, by decide⟩

/-- C8 (amended): the pass does not detect mismatched per-branch resource
positions.  `CalculateRetvalRearrange` reports `Unimplemented` only when a
resource retval's direct input is not an `_Arg`; because the two branches
share the accumulator maps and `std::map::insert` keeps an existing key, the
then-branch's entry survives the else-branch unchanged (first insert wins),
and an `If` node whose branches alias the same retval to different `_Arg`
indices is rewritten successfully using the then-branch's mapping.  (i) In
general, a key already present in `resource_retval_to_arg` keeps its value
through any successful `CalculateRetvalRearrange` run; (ii) on the concrete
mismatched-branch input, running the retval analysis of the else branch on
top of the then branch's maps keeps retval 0 aliased to `_Arg[0]` and the
whole `If` rewrite succeeds. -/
theorem C8_mismatched_branch_positions_not_detected :
    (∀ g rets rm0 ra0 rm ra,
      CalculateRetvalRearrange g rets rm0 ra0 = .ok (rm, ra) →
      ∀ k v, mapFind? ra0 k = some v → mapFind? ra k = some v) ∧
    (CalculateRetvalRearrange c8ElseGraph [2] [] [(0, 0)]
        = .ok ([], [(0, 0)]) ∧
     (MaybeRewriteIfNode c8Graph 80 c8Fld).res = .ok true) :=
  ⟨fun g rets rm0 ra0 rm ra h =>
    calcRetvalLoop_first_insert_wins g rets 0 rm0 ra0 rm ra h,
   by decide, by decide⟩

/-- Witness for C8: the then-branch's aliasing of retval 0 to `_Arg[0]`
survives the else-branch analysis. -/
theorem C8_mismatched_branch_positions_not_detected_witness :
    mapFind? [(0, 0)] 0 = some 0 :=
  C8_mismatched_branch_positions_not_detected.1 c8ElseGraph [2] [] [(0, 0)]
    [] [(0, 0)] (by decide) 0 0 (by decide)

/-- The C6 callee: a pure float identity function. -/
def c6CalleeGraph : Graph :=
  ⟨[⟨0, "a0", "_Arg", [("T", .type DT_FLOAT), ("index", .int 0)]⟩,
    ⟨1, "r0", "_Retval", [("T", .type DT_FLOAT), ("index", .int 0)]⟩],
   [⟨0, 0, 1, 0, false⟩]⟩

def c6Fld : FunctionLibrary := [⟨"idf", c6CalleeGraph⟩]

/-- A `StatefulPartitionedCall` node with no resource inputs and no resource
outputs — per the function's own comment (lines 380-382) it needs no
rewrite. -/
def c6Graph : Graph :=
  ⟨[⟨70, "call", "StatefulPartitionedCall",
      [("Tin", .typeList [DT_FLOAT]), ("Tout", .typeList [DT_FLOAT]),
       ("f", .func "idf")]⟩], []⟩

/-- The node after the buggy rewrite: repointed at a needlessly allocated
new function name. -/
def c6GraphAfter : Graph :=
  ⟨[⟨70, "call", "StatefulPartitionedCall",
      [("Tin", .typeList [DT_FLOAT]), ("Tout", .typeList [DT_FLOAT]),
       ("f", .func "idf_rearrange_0")]⟩], []⟩

/-- C6 (code bug, lines 383-397): `MaybeRewriteCallNode` decides "no rewrite
needed" by testing `!resource_input_count`, but that local is uninitialized
whenever `InputTypesNeedsRearrange` reports no rearrangement (the out-param
is only written on the rewrite path), so the decision depends on garbage.
On a call node with `Tin = [float]`, `Tout = [float]` (no resource anywhere,
`need_rewrite = false`): if the indeterminate local happens to be `0` the
node is left untouched as intended, but if it is any nonzero value the node
is "rewritten" — a new function `idf_rearrange_0` is registered in the
library and the call is repointed at it — so the pass is not a no-op and not
idempotent on already-normalized inputs.  The intended test, used by the
parallel `If`-node path (line 474), is `!input_need_rearrange`. -/
theorem C6_no_resource_call_node_rewrite_depends_on_uninitialized_local :
    (InputTypesNeedsRearrange [DT_FLOAT] 0 []).need_rewrite = false ∧
    ([DT_FLOAT].contains DT_RESOURCE) = false ∧
    MaybeRewriteCallNode c6Graph 70 c6Fld 0 = ⟨c6Graph, c6Fld, .ok false⟩ ∧
    MaybeRewriteCallNode c6Graph 70 c6Fld 1
      = ⟨c6GraphAfter, c6Fld ++ [⟨"idf_rearrange_0", c6CalleeGraph⟩],
         .ok true⟩ := by
  refine ⟨by decide, by decide, by decide, by decide⟩

/-- The inner While condition function for the C5 scenario. -/
def c5CondGraph : Graph :=
  ⟨[⟨0, "a0", "_Arg", [("T", .type DT_RESOURCE), ("index", .int 0)]⟩,
    ⟨1, "a1", "_Arg", [("T", .type DT_FLOAT), ("index", .int 1)]⟩,
    ⟨2, "pred", "Less", []⟩,
    ⟨3, "r0", "_Retval", [("T", .type DT_BOOL), ("index", .int 0)]⟩],
   [⟨2, 0, 3, 0, false⟩]⟩

/-- The inner While body function for the C5 scenario (same-index resource
pass-through, so the While rewrite succeeds). -/
def c5BodyGraph : Graph :=
  ⟨[⟨0, "a0", "_Arg", [("T", .type DT_RESOURCE), ("index", .int 0)]⟩,
    ⟨1, "a1", "_Arg", [("T", .type DT_FLOAT), ("index", .int 1)]⟩,
    ⟨2, "r0", "_Retval", [("T", .type DT_RESOURCE), ("index", .int 0)]⟩,
    ⟨3, "r1", "_Retval", [("T", .type DT_FLOAT), ("index", .int 1)]⟩],
   [⟨0, 0, 2, 0, false⟩, ⟨1, 0, 3, 0, false⟩]⟩

/-- The shared function `g` of Scenario E: its body holds a While node whose
loop-carried types `[resource, float]` need rearrangement, so processing `g`
rewrites it. -/
def c5SharedGraph : Graph :=
  ⟨[⟨5, "loop", "While",
      [("T", .typeList [DT_RESOURCE, DT_FLOAT]),
       ("cond", .func "hc"), ("body", .func "hb")]⟩], []⟩

/-- The top function `f` of Scenario E: two distinct `If` call sites (nodes
1 and 2), all four branch attributes referencing the same shared function
`g` (with identical — empty — attribute maps). -/
def c5TopGraph : Graph :=
  ⟨[⟨1, "n1", "If",
      [("Tin", .typeList []), ("Tout", .typeList []),
       ("then_branch", .func "g"), ("else_branch", .func "g")]⟩,
    ⟨2, "n2", "If",
      [("Tin", .typeList []), ("Tout", .typeList []),
       ("then_branch", .func "g"), ("else_branch", .func "g")]⟩], []⟩

def c5Fld : FunctionLibrary :=
  [⟨"hc", c5CondGraph⟩, ⟨"hb", c5BodyGraph⟩, ⟨"g", c5SharedGraph⟩,
   ⟨"f", c5TopGraph⟩]

/-- C5: two distinct call sites referencing the same function with identical
(canonicalized) attributes cause exactly one rewrite of its body.  (i) In
general, whenever the memoization map already holds a rewritten entry for
the referenced name, the per-call-site step performs no recursion and no
library mutation at all: it just repoints the node at the memoized new name
and moves on.  (ii) On the concrete Scenario E library (two `If` nodes, four
references to the shared `g`), the full pass succeeds, registers exactly one
rearranged copy of `g` (`g_rearrange_0`, and no `g_rearrange_1`), records
`g -> g_rearrange_0` in the memo, and repoints all four branch attributes of
both call sites at that single name. -/
theorem C5_shared_function_rewritten_once_via_memoization :
    (∀ rec g fld memo modified nid attr nm nn rest,
      memoFind memo (Canonicalize nm) = some (some nn) →
      processAssocList rec g fld memo modified ((nid, attr, nm) :: rest)
        = processAssocList rec (RewriteAssociatedFunction g nid attr nn)
            fld memo true rest) ∧
    ((RearrangeFunctionArgumentForFunction 10 "f" "fnew" c5Fld []).res
        = .ok true ∧
     (RearrangeFunctionArgumentForFunction 10 "f" "fnew" c5Fld []).fld.countP
        (fun fd => fd.fname == "g_rearrange_0") = 1 ∧
     (RearrangeFunctionArgumentForFunction 10 "f" "fnew" c5Fld []).fld.countP
        (fun fd => fd.fname == "g_rearrange_1") = 0 ∧
     memoFind (RearrangeFunctionArgumentForFunction 10 "f" "fnew" c5Fld []).memo
        "g" = some (some "g_rearrange_0") ∧
     (fldFind (RearrangeFunctionArgumentForFunction 10 "f" "fnew" c5Fld []).fld
        "fnew").map (fun fd => fd.fgraph.nodes.map (fun n =>
          (getFuncAttr n "then_branch", getFuncAttr n "else_branch")))
       = some [(some "g_rearrange_0", some "g_rearrange_0"),
               (some "g_rearrange_0", some "g_rearrange_0")]) := by
  constructor
  · intro rec g fld memo modified nid attr nm nn rest h
    simp only [processAssocList, Canonicalize] at h ⊢
    rw [h]
  · refine ⟨by decide, by decide, by decide, by decide, by decide⟩

/-- Witness for C5: a memoization hit repoints the call site without
touching the library. -/
theorem C5_shared_function_rewritten_once_via_memoization_witness :
    processAssocList (RearrangeFunctionArgumentForFunction 0) c5TopGraph
        c5Fld [("g", some "g_rearrange_0")] false [(1, "then_branch", "g")]
      = processAssocList (RearrangeFunctionArgumentForFunction 0)
          (RewriteAssociatedFunction c5TopGraph 1 "then_branch"
            "g_rearrange_0")
          c5Fld [("g", some "g_rearrange_0")] true [] :=
  C5_shared_function_rewritten_once_via_memoization.1
    (RearrangeFunctionArgumentForFunction 0) c5TopGraph c5Fld
    [("g", some "g_rearrange_0")] false 1 "then_branch" "g" "g_rearrange_0"
    [] (by decide)

/-- A function whose body references itself (a true cycle in the associated
function graph). -/
def c4SelfGraph : Graph :=
  ⟨[⟨1, "n", "If", [("then_branch", .func "selfref")]⟩], []⟩

def c4Fld : FunctionLibrary := [⟨"selfref", c4SelfGraph⟩]

/-- Counterexample to C4: on the self-referential library, the pass (run
with depth bound 5) does not detect the cycle and does not surface an
`Internal` error — it recurses until the bound is exhausted, with the memo
map still empty: no in-progress marker is ever recorded, because
`canonicalized_name_to_new_name` entries are only written after a recursive
call returns (lines 645-658). -/
theorem C4_counterexample_self_reference_recurses :
    RearrangeFunctionArgumentForFunction 5 "selfref" "selfref_rearrange_x"
        c4Fld []
      = ⟨c4Fld, [], .error .outOfFuel⟩ ∧
    (RearrangeFunctionArgumentForFunction 5 "selfref" "selfref_rearrange_x"
        c4Fld []).res ≠ .error .internal := by
  refine ⟨by decide, by decide⟩

theorem processAssocList_miss_error
    (rec : String → String → FunctionLibrary → Memo → PassResult)
    (g : Graph) (fld : FunctionLibrary) (memo : Memo) (modified : Bool)
    (nid : Nat) (attr nm : String) (rest : List (Nat × String × String))
    (e : Err) (fld2 : FunctionLibrary) (memo2 : Memo)
    (hmiss : memoFind memo (Canonicalize nm) = none)
    (hrec : rec nm (UniqueFunctionName fld (nm ++ "_rearrange_")) fld memo
      = ⟨fld2, memo2, .error e⟩) :
    processAssocList rec g fld memo modified ((nid, attr, nm) :: rest)
      = (g, fld2, memo2, modified, .error e) := by
  simp only [processAssocList, Canonicalize] at hmiss ⊢
  rw [hmiss]
  show (match rec nm (UniqueFunctionName fld (nm ++ "_rearrange_")) fld memo with
    | ⟨fld2, memo2, .error e⟩ => (g, fld2, memo2, modified, Except.error e)
    | ⟨fld2, memo2, .ok function_modified⟩ =>
      let memo3 := memoInsert memo2 nm
        (if function_modified
          then some (UniqueFunctionName fld (nm ++ "_rearrange_")) else none)
      if function_modified then
        processAssocList rec
          (RewriteAssociatedFunction g nid attr
            (UniqueFunctionName fld (nm ++ "_rearrange_"))) fld2 memo3 true rest
      else processAssocList rec g fld2 memo3 modified rest)
    = (g, fld2, memo2, modified, Except.error e)
  rw [hrec]

theorem rearrangePass_assoc_error (fuel : Nat)
    (func_name new_func_name : String) (fld : FunctionLibrary) (memo : Memo)
    (fdef : FunctionDef) (g2 : Graph) (m2 : Bool) (e : Err)
    (fld2 : FunctionLibrary) (memo2 : Memo)
    (hfind : fldFind fld func_name = some fdef)
    (hassoc : processAssocList (RearrangeFunctionArgumentForFunction fuel)
        fdef.fgraph fld memo false (assocItems fdef.fgraph)
      = (g2, fld2, memo2, m2, .error e)) :
    RearrangeFunctionArgumentForFunction (fuel + 1) func_name new_func_name
        fld memo = ⟨fld2, memo2, .error e⟩ := by
  simp only [RearrangeFunctionArgumentForFunction]
  rw [hfind]
  show (match processAssocList (RearrangeFunctionArgumentForFunction fuel)
      fdef.fgraph fld memo false (assocItems fdef.fgraph) with
    | (_, fld2, memo2, _, .error e) => (⟨fld2, memo2, .error e⟩ : PassResult)
    | (g2, fld2, memo2, modified1, .ok _) =>
      match processCallLikeNodes g2 fld2 (g2.nodes.map (fun n => n.id))
          modified1 with
      | (_, fld3, _, .error e) => ⟨fld3, memo2, .error e⟩
      | (g3, fld3, modified2, .ok _) =>
        if modified2 then
          if func_name == new_func_name then
            ⟨ReplaceFunction fld3 new_func_name
              (GraphToFunctionDef g3 new_func_name), memo2, .ok true⟩
          else
            match AddFunctionDef fld3 (GraphToFunctionDef g3 new_func_name) with
            | .error e => ⟨fld3, memo2, .error e⟩
            | .ok fld4 => ⟨fld4, memo2, .ok true⟩
        else ⟨fld3, memo2, .ok false⟩)
    = (⟨fld2, memo2, .error e⟩ : PassResult)
  rw [hassoc]

/-- C4 (amended): the pass has no in-progress marker — memo entries are
recorded only after a recursive call returns — so on a self-referential
associated function the recursion never terminates and never surfaces an
`Internal` error: in the depth-bounded model, for every depth bound `fuel`
and every target name, the pass on the cyclic library exhausts the bound
(result `outOfFuel`, library and memo untouched). -/
theorem C4_self_reference_never_terminates :
    ∀ fuel nn, RearrangeFunctionArgumentForFunction fuel "selfref" nn c4Fld []
      = ⟨c4Fld, [], .error .outOfFuel⟩ := by
  intro fuel
  induction fuel with
  | zero => intro nn; rfl
  | succ fuel ih =>
    intro nn
    have hrec := ih (UniqueFunctionName c4Fld ("selfref" ++ "_rearrange_"))
    have hstep := processAssocList_miss_error
      (RearrangeFunctionArgumentForFunction fuel) c4SelfGraph c4Fld [] false
      1 "then_branch" "selfref" [] .outOfFuel c4Fld []
      (by decide) hrec
    have hitems : assocItems c4SelfGraph = [(1, "then_branch", "selfref")] := by
      decide
    exact rearrangePass_assoc_error fuel "selfref" nn c4Fld []
      ⟨"selfref", c4SelfGraph⟩ c4SelfGraph false .outOfFuel c4Fld []
      (by decide) (by rw [hitems]; exact hstep)
